import Mathlib

/-!
Verification development for the `isa_simulator` repository (a cycle-accurate
simulator for a custom 32-bit RISC-style ISA, written in Rust).

The Rust sources (`src/cpu.rs`, `src/mmu.rs`, `src/pipeline.rs`,
`src/simulator.rs`) are shallowly embedded below:

* Machine integers (`u32`, `i32`, `u8`) are modelled as `Nat` / `Int` with
  explicit wrap-around (`% 2^32`) where the Rust release-mode semantics wraps.
  Rust shifts mask the shift amount to its low 5 bits in release mode, which is
  what the model does.
* `FxHashMap<PAddr, Vec<u8>>` (sparse physical memory) is modelled as
  `Nat → Option (Nat → Nat)`: page base address to page content (byte at
  offset).  Byte buffers carried around by readers/writers are `List Nat`.
* Rust `Result<_, SimErr>` is an explicit error value; Rust panics
  (`unwrap`, failed `assert!`, `unreachable!`, explicit `panic!`) are a
  distinguished `panicked` outcome, since a panic aborts the whole process.
  Functions that mutate `&mut self` and then return `Err` keep the mutated
  state alongside the error, exactly as the Rust borrow does.
* `rand::thread_rng` is modelled as an oracle stream `rng_stream` with a
  cursor `rng_idx` inside the simulator state.
* GUI-only state (`cur_mem`, `cur_cache_set`, `breakpoints`, the FLTK
  frames and the VGA text screen contents) is not tracked; the VGA write
  path is modelled only by its bounds assertion, which can panic.
* `Register` values are modelled by their `as usize` index: `R0`..`R15` are
  `0`..`15` and `Register::None` is `16`.  The register file is a total
  function `Nat → Nat`; index 16 is a scratch cell that never aliases
  `R0`..`R15` (the Rust code would panic on an out-of-bounds register
  access; no claim below depends on that path).
-/

/-- Errors that can occur during simulation (`SimErr` in `simulator.rs`). -/
inductive SimErr where
  | AddrTranslation
  | Permission
  | LoadErr
  | InstrDecode
  | Shutdown
  | MemOverlap
  | MemStall
  | DivByZero
deriving DecidableEq, Repr

/-- Result of a fallible operation: Rust `Ok`, Rust `Err`, or a Rust panic. -/
inductive PRes (α : Type) where
  | ok (a : α)
  | err (e : SimErr)
  | panicked
deriving DecidableEq, Repr

/-- Size of physical pages allocated to programs. -/
def PAGE_SIZE : Nat := 4096

/-- Stall-time in cycles if an access to Ram occurs. -/
def RAM_STALL : Nat := 100

/-- Stall-time in cycles if an access to L1 Cache occurs. -/
def L1_CACHE_STALL : Nat := 10

/-- Truncate to a `u32` value (wrap-around semantics of release-mode Rust). -/
def u32 (n : Nat) : Nat := n % 4294967296

/-- Reinterpret an `Int` as the `Nat` value of the corresponding `u32`
(two's complement wrap-around). -/
def toU32 (i : Int) : Nat := (i % 4294967296).toNat

/-- `u32` subtraction with wrap-around. -/
def u32sub (a b : Nat) : Nat := toU32 ((a : Int) - (b : Int))

/-- `as_u32_le` from `lib.rs`: little-endian bytes to a `u32` value.  The
Rust function asserts a length of exactly 4; all call sites modelled below
pass 4 bytes. -/
def as_u32_le (bytes : List Nat) : Nat :=
  bytes.getD 0 0 + bytes.getD 1 0 * 256 + bytes.getD 2 0 * 65536 +
    bytes.getD 3 0 * 16777216

/-- Little-endian byte list (length `n`) of a value, as produced by
`to_le().to_ne_bytes()` in the Rust code. -/
def toLEBytes (n v : Nat) : List Nat :=
  (List.range n).map (fun k => v / 256 ^ k % 256)

/-- `Register::from(u32)` in `cpu.rs`: values below 16 name `R0`..`R15`,
anything else is `Register::None` (index 16 in this model). -/
def register_from (val : Nat) : Nat := if val < 16 then val else 16

/-- Instructions supported by this architecture (`Instr` in `cpu.rs`).
Register operands are carried as their index (0..16), immediates and
offsets as the sign-extended `Int` the decoder produces. -/
inductive Instr where
  | None
  | Add  (rs3 rs1 rs2 : Nat)
  | Sub  (rs3 rs1 rs2 : Nat)
  | Xor  (rs3 rs1 rs2 : Nat)
  | Or   (rs3 rs1 rs2 : Nat)
  | And  (rs3 rs1 rs2 : Nat)
  | Shr  (rs3 rs1 rs2 : Nat)
  | Shl  (rs3 rs1 rs2 : Nat)
  | Mul  (rs3 rs1 rs2 : Nat)
  | Div  (rs3 rs1 rs2 : Nat)
  | Addi (rs3 rs1 : Nat) (imm : Int)
  | Subi (rs3 rs1 : Nat) (imm : Int)
  | Xori (rs3 rs1 : Nat) (imm : Int)
  | Ori  (rs3 rs1 : Nat) (imm : Int)
  | Andi (rs3 rs1 : Nat) (imm : Int)
  | Lui  (rs3 : Nat) (imm : Int)
  | Ldb  (rs3 rs1 : Nat) (imm : Int)
  | Ldh  (rs3 rs1 : Nat) (imm : Int)
  | Ld   (rs3 rs1 : Nat) (imm : Int)
  | Stb  (rs3 rs1 : Nat) (imm : Int)
  | Sth  (rs3 rs1 : Nat) (imm : Int)
  | St   (rs3 rs1 : Nat) (imm : Int)
  | Bne  (rs3 rs1 : Nat) (imm : Int)
  | Beq  (rs3 rs1 : Nat) (imm : Int)
  | Blt  (rs3 rs1 : Nat) (imm : Int)
  | Bgt  (rs3 rs1 : Nat) (imm : Int)
  | Jmpr (rs3 : Nat) (offset : Int)
  | Call (rs3 : Nat) (offset : Int)
  | Ret
  | Nop
  | Int0
  | Invalid
deriving DecidableEq, Repr

/-- `Instr::writes_to_rs3` from `cpu.rs`: the registers an instruction
writes, used for hazard detection.  Store instructions report `rs3` as
written (the source comments this with "Store instructions can write to
`rs3` for mmio operations"). -/
def Instr.writes_to_rs3 : Instr → List Nat
  | .Add  rs3 _ _ | .Sub rs3 _ _ | .Xor rs3 _ _ | .Or rs3 _ _
  | .And  rs3 _ _ | .Shr rs3 _ _ | .Shl rs3 _ _ | .Mul rs3 _ _
  | .Div  rs3 _ _
  | .Addi rs3 _ _ | .Subi rs3 _ _ | .Xori rs3 _ _ | .Ori rs3 _ _
  | .Andi rs3 _ _ | .Lui rs3 _
  | .Ldb  rs3 _ _ | .Ldh rs3 _ _ | .Stb rs3 _ _ | .Sth rs3 _ _
  | .St   rs3 _ _ | .Ld rs3 _ _ => [rs3]
  | .Nop | .Jmpr _ _ | .Bne _ _ _ | .Beq _ _ _ | .Blt _ _ _
  | .Bgt _ _ _ | .Int0 | .None | .Invalid => []
  | .Call _ _ | .Ret => [14, 15]

/-- `Instr::uses_regs` from `cpu.rs`: the registers an instruction reads. -/
def Instr.uses_regs : Instr → List Nat
  | .Add _ rs1 rs2 | .Sub _ rs1 rs2 | .Xor _ rs1 rs2 | .Or _ rs1 rs2
  | .And _ rs1 rs2 | .Shr _ rs1 rs2 | .Mul _ rs1 rs2 | .Div _ rs1 rs2
  | .Shl _ rs1 rs2 => [rs1, rs2]
  | .Ldb _ rs1 _ | .Ldh _ rs1 _ | .Ld _ rs1 _ | .Addi _ rs1 _
  | .Subi _ rs1 _ | .Xori _ rs1 _ | .Ori _ rs1 _ | .Andi _ rs1 _ => [rs1]
  | .Blt rs3 rs1 _ | .Bgt rs3 rs1 _ | .Beq rs3 rs1 _ | .Bne rs3 rs1 _
  | .Stb rs3 rs1 _ | .Sth rs3 rs1 _ | .St rs3 rs1 _ => [rs3, rs1]
  | .Jmpr rs3 _ => [rs3]
  | .Ret | .Call _ _ => [14]
  | .Nop | .None | .Invalid | .Int0 | .Lui _ _ => []

/-- Extract the instruction opcode bits (`cpu.rs`). -/
def extract_opcode (val : Nat) : Nat := val >>> 26

/-- Extract the `rs3` field bits (`cpu.rs`). -/
def extract_rs3 (val : Nat) : Nat := (val >>> 21) &&& 0b11111

/-- Extract the `rs1` field bits (`cpu.rs`). -/
def extract_rs1 (val : Nat) : Nat := (val >>> 16) &&& 0b11111

/-- Extract the `rs2` field bits (`cpu.rs`). -/
def extract_rs2 (val : Nat) : Nat := (val >>> 11) &&& 0b11111

/-- Extract and sign-extend the 16-bit `imm` field (`cpu.rs` does this with
an `i32` shift pair `((x << 16) >> 16)`). -/
def extract_imm (val : Nat) : Int :=
  let x := val &&& 0xffff
  if x < 0x8000 then (x : Int) else (x : Int) - 0x10000

/-- Extract and sign-extend the 21-bit `offset` field (`cpu.rs` does this
with an `i32` shift pair `((x << 11) >> 11)`). -/
def extract_offset (val : Nat) : Int :=
  let x := val &&& 0x1fffff
  if x < 0x100000 then (x : Int) else (x : Int) - 0x200000

/-- `decode_instr` from `cpu.rs`: decode a raw 32-bit word.  Unknown opcodes
give `Err(SimErr::InstrDecode)`.  The opcode numbers are the `InstrCode`
discriminants. -/
def decode_instr (instr : Nat) : Except SimErr Instr :=
  let rs1 := register_from (extract_rs1 instr)
  let rs2 := register_from (extract_rs2 instr)
  let rs3 := register_from (extract_rs3 instr)
  let offset := extract_offset instr
  let imm := extract_imm instr
  match extract_opcode instr with
  | 2  => .ok (.Add rs3 rs1 rs2)
  | 3  => .ok (.Sub rs3 rs1 rs2)
  | 4  => .ok (.Xor rs3 rs1 rs2)
  | 5  => .ok (.Or rs3 rs1 rs2)
  | 6  => .ok (.And rs3 rs1 rs2)
  | 7  => .ok (.Shr rs3 rs1 rs2)
  | 8  => .ok (.Shl rs3 rs1 rs2)
  | 9  => .ok (.Addi rs3 rs1 imm)
  | 10 => .ok (.Subi rs3 rs1 imm)
  | 11 => .ok (.Xori rs3 rs1 imm)
  | 12 => .ok (.Ori rs3 rs1 imm)
  | 13 => .ok (.Andi rs3 rs1 imm)
  | 14 => .ok (.Ldb rs3 rs1 imm)
  | 15 => .ok (.Ldh rs3 rs1 imm)
  | 16 => .ok (.Ld rs3 rs1 imm)
  | 17 => .ok (.Stb rs3 rs1 imm)
  | 18 => .ok (.Sth rs3 rs1 imm)
  | 19 => .ok (.St rs3 rs1 imm)
  | 20 => .ok (.Bne rs3 rs1 imm)
  | 21 => .ok (.Beq rs3 rs1 imm)
  | 22 => .ok (.Blt rs3 rs1 imm)
  | 23 => .ok (.Bgt rs3 rs1 imm)
  | 25 => .ok (.Jmpr rs3 offset)
  | 26 => .ok (.Lui rs3 imm)
  | 27 => .ok (.Call rs3 offset)
  | 28 => .ok (.Ret)
  | 29 => .ok (.Nop)
  | 30 => .ok (.Mul rs3 rs1 rs2)
  | 31 => .ok (.Div rs3 rs1 rs2)
  | 40 => .ok (.Int0)
  | _  => .error .InstrDecode

/-- A cache line (`CacheLine` in `mmu.rs`): valid bit, tag, and a 64-byte
data buffer (modelled as a function from offset to byte). -/
structure CacheLine where
  is_valid : Bool
  tag : Nat
  data : Nat → Nat

/-- The empty invalidated cache line (`CacheLine::default`). -/
def CacheLine.default : CacheLine :=
  { is_valid := false, tag := 0, data := fun _ => 0 }

/-- The MMU (`Mmu` in `mmu.rs`): sparse physical memory, two-level page
table, 128 cache lines (32 sets of 4 ways), the LRU queue and the cache
enable flag. -/
structure Mmu where
  mem : Nat → Option (Nat → Nat)
  page_table : Nat → Option (Nat → Nat)
  cache : Nat → CacheLine
  lru_queue : List Nat
  cache_enabled : Bool

/-- `Mmu::new`. -/
def Mmu.new : Mmu :=
  { mem := fun _ => Option.none
    page_table := fun _ => Option.none
    cache := fun _ => CacheLine.default
    lru_queue := [0, 1, 2, 3]
    cache_enabled := true }

/-- `Mmu::clear_caches`: flush every line and reset the LRU queue. -/
def Mmu.clear_caches (m : Mmu) : Mmu :=
  { m with cache := fun _ => CacheLine.default, lru_queue := [0, 1, 2, 3] }

/-- `Mmu::translate_addr`: two-level page-table walk.  `perms` is the `u8`
permission set required for the access. -/
def Mmu.translate_addr (m : Mmu) (addr perms : Nat) : Except SimErr Nat :=
  let idx_1 := (addr &&& 0xffc00000) >>> 22
  let idx_2 := (addr &&& 0x003ff000) >>> 12
  let offset := addr &&& 0xfff
  match m.page_table idx_1 with
  | some table_1 =>
      if (table_1 idx_2 &&& perms) ≠ perms then .error .Permission
      else .ok ((table_1 idx_2 &&& 0xfffff000) + offset)
  | none => .error .AddrTranslation

/-- `Mmu::mem_load_from_ram`: read `len` bytes at a physical address from
the backing page (no cache involvement, no state change). -/
def Mmu.mem_load_from_ram (m : Mmu) (addr len : Nat) :
    Except SimErr (List Nat) :=
  let page_base := addr &&& 0xfffff000
  let offset := addr &&& 0xfff
  match m.mem page_base with
  | some page => .ok ((List.range len).map (fun k => page (offset + k)))
  | none => .error .AddrTranslation

/-- `Mmu::addr_in_cache`: side-effect-free probe used by the pipeline to
pick the stall duration. -/
def Mmu.addr_in_cache (m : Mmu) (addr : Nat) : Bool :=
  if !m.cache_enabled then false
  else
    let index := (addr &&& 0b11111000000) >>> 6
    let tag := addr >>> 11
    (List.range 4).any (fun i =>
      tag == (m.cache (index * 4 + i)).tag && (m.cache (index * 4 + i)).is_valid)

/-- First way of the probed set holding a valid line with the wanted tag
(the first `for` loop in `Mmu::mem_load_from_cache`). -/
def Mmu.findHitWay (m : Mmu) (index tag : Nat) : Option Nat :=
  (List.range 4).find? (fun i =>
    tag == (m.cache (index * 4 + i)).tag && (m.cache (index * 4 + i)).is_valid)

/-- First invalid way of the probed set (the second `for` loop in
`Mmu::mem_load_from_cache`). -/
def Mmu.findInvalidWay (m : Mmu) (index : Nat) : Option Nat :=
  (List.range 4).find? (fun i => !(m.cache (index * 4 + i)).is_valid)

/-- The LRU-queue update after a refill: remove the first occurrence of the
way from the queue (if present) and append it at the tail. -/
def lruMoveToBack (q : List Nat) (i : Nat) : List Nat :=
  if q.contains i then q.erase i ++ [i] else q

/-- Overwrite one cache slot. -/
def Mmu.setCache (m : Mmu) (j : Nat) (line : CacheLine) : Mmu :=
  { m with cache := fun k => if k = j then line else m.cache k }

/-- `Mmu::mem_load_from_cache`: 4-way set-associative lookup with refill
and LRU eviction.  Returns the hit flag, the bytes read and the updated
MMU.  The `unwrap` on an empty LRU queue is a panic. -/
def Mmu.mem_load_from_cache (m : Mmu) (addr len : Nat) :
    PRes (Bool × List Nat × Mmu) :=
  let offset := addr &&& 0b111111
  let index := (addr &&& 0b11111000000) >>> 6
  let tag := addr >>> 11
  let cache_aligned_addr := addr &&& 0xffffffc0
  match m.findHitWay index tag with
  | some i =>
      .ok (true,
        (List.range len).map (fun k => (m.cache (index * 4 + i)).data (offset + k)),
        m)
  | none =>
      match m.findInvalidWay index with
      | some i =>
          match m.mem_load_from_ram cache_aligned_addr 64 with
          | .error e => .err e
          | .ok r1 =>
              let line : CacheLine :=
                { is_valid := true, tag := tag, data := fun k => r1.getD k 0 }
              let m' := (m.setCache (index * 4 + i) line)
              let m' := { m' with lru_queue := lruMoveToBack m'.lru_queue i }
              .ok (false,
                (List.range len).map (fun k => line.data (offset + k)), m')
      | none =>
          match m.lru_queue with
          | [] => .panicked
          | lru :: rest =>
              let m' := { m with lru_queue := rest ++ [lru] }
              match m'.mem_load_from_ram cache_aligned_addr 64 with
              | .error e => .err e
              | .ok r1 =>
                  let line : CacheLine :=
                    { is_valid := true, tag := tag, data := fun k => r1.getD k 0 }
                  let m' := m'.setCache (index * 4 + lru) line
                  .ok (false,
                    (List.range len).map (fun k => line.data (offset + k)), m')

/-- `Mmu::mem_invalidate_cache`: clear the valid bit of every way in the
addressed set whose tag matches. -/
def Mmu.mem_invalidate_cache (m : Mmu) (addr : Nat) : Mmu :=
  let index := (addr &&& 0b11111000000) >>> 6
  let tag := addr >>> 11
  { m with cache := fun j =>
      if (index * 4 ≤ j ∧ j < index * 4 + 4) ∧ tag = (m.cache j).tag ∧
          (m.cache j).is_valid then
        { m.cache j with is_valid := false }
      else m.cache j }

/-- `Mmu::mem_write`: translate with `WRITE` permission, check the size and
alignment assertions (violations panic), invalidate matching cache lines
when the cache is enabled, and write through to the backing page (an
absent page is the `unwrap` panic). -/
def Mmu.mem_write (m : Mmu) (addr : Nat) (data : List Nat) : PRes Mmu :=
  match m.translate_addr addr 2 with
  | .error e => .err e
  | .ok paddr =>
      let page_base := paddr &&& 0xfffff000
      let offset := paddr &&& 0xfff
      if data.length > 4 then .panicked
      else if data.length = 2 ∧ paddr &&& 0x1 ≠ 0 then .panicked
      else if data.length = 4 ∧ paddr &&& 0x3 ≠ 0 then .panicked
      else if data.length = 0 ∨ data.length = 3 then .panicked
      else
        let m := if m.cache_enabled then m.mem_invalidate_cache paddr else m
        match m.mem page_base with
        | none => .panicked
        | some page =>
            let page' : Nat → Nat := fun o =>
              if offset ≤ o ∧ o < offset + data.length then
                data.getD (o - offset) 0
              else page o
            let mem' : Nat → Option (Nat → Nat) := fun b =>
              if b = page_base then some page' else m.mem b
            .ok { m with mem := mem' }

/-- `Mmu::mem_read`: translate with `READ` permission, check the size
assertion and the 4-byte alignment assertion (which applies to every read
size), then read through the cache or straight from ram. -/
def Mmu.mem_read (m : Mmu) (addr len : Nat) : PRes (Bool × List Nat × Mmu) :=
  match m.translate_addr addr 4 with
  | .error e => .err e
  | .ok paddr =>
      if len > 4 then .panicked
      else if paddr &&& 0x3 ≠ 0 then .panicked
      else if m.cache_enabled then m.mem_load_from_cache paddr len
      else
        match m.mem_load_from_ram paddr len with
        | .error e => .err e
        | .ok bytes => .ok (false, bytes, m)

/-! ### Bit-manipulation toolkit

Small lemmas that turn the mask/shift operations used by the MMU into
plain division/modulus arithmetic, so that `omega` can reason about
addresses. -/

/-- Masking with a shifted block of ones extracts a bit field:
`x &&& ((2^k - 1) <<< a) = 2^a * (x >>> a % 2^k)`. -/
theorem Nat.land_field (x a k : Nat) :
    x &&& ((2 ^ k - 1) <<< a) = 2 ^ a * (x >>> a % 2 ^ k) := by
  apply Nat.eq_of_testBit_eq
  intro i
  rw [mul_comm, ← Nat.shiftLeft_eq]
  simp only [Nat.testBit_land, Nat.testBit_shiftLeft, Nat.testBit_mod_two_pow,
    Nat.testBit_shiftRight, Nat.testBit_two_pow_sub_one]
  by_cases h : a ≤ i
  · have hi : a + (i - a) = i := Nat.add_sub_cancel' h
    simp [h, hi, Bool.and_comm, Bool.and_left_comm]
  · simp [h]

/-- `x &&& 0xfff = x % 2^12` (the page-offset mask). -/
theorem Nat.land_xfff (x : Nat) : x &&& 0xfff = x % 2 ^ 12 := by
  have h := Nat.and_pow_two_sub_one_eq_mod x 12
  norm_num at h ⊢
  exact h

/-- `x &&& 63 = x % 2^6` (the cache-line-offset mask). -/
theorem Nat.land_63 (x : Nat) : x &&& 63 = x % 2 ^ 6 := by
  have h := Nat.and_pow_two_sub_one_eq_mod x 6
  norm_num at h ⊢
  exact h

/-- `x &&& 3 = x % 4` (the word-alignment mask). -/
theorem Nat.land_3 (x : Nat) : x &&& 3 = x % 4 := by
  have h := Nat.and_pow_two_sub_one_eq_mod x 2
  norm_num at h ⊢
  exact h

/-- `x &&& 1 = x % 2` (the halfword-alignment mask). -/
theorem Nat.land_1 (x : Nat) : x &&& 1 = x % 2 := by
  simp

/-- The page-base mask `0xfffff000` keeps bits 12..31. -/
theorem Nat.land_xfffff000 (x : Nat) :
    x &&& 0xfffff000 = 2 ^ 12 * (x / 2 ^ 12 % 2 ^ 20) := by
  have h := Nat.land_field x 12 20
  rw [Nat.shiftRight_eq_div_pow] at h
  norm_num at h ⊢
  exact h

/-- The cache-alignment mask `0xffffffc0` keeps bits 6..31. -/
theorem Nat.land_xffffffc0 (x : Nat) :
    x &&& 0xffffffc0 = 2 ^ 6 * (x / 2 ^ 6 % 2 ^ 26) := by
  have h := Nat.land_field x 6 26
  rw [Nat.shiftRight_eq_div_pow] at h
  norm_num at h ⊢
  exact h

/-- The cache-set-index mask `0x7c0` keeps bits 6..10. -/
theorem Nat.land_x7c0 (x : Nat) :
    x &&& 0x7c0 = 2 ^ 6 * (x / 2 ^ 6 % 2 ^ 5) := by
  have h := Nat.land_field x 6 5
  rw [Nat.shiftRight_eq_div_pow] at h
  norm_num at h ⊢
  exact h

/-- The L1-index mask `0xffc00000` keeps bits 22..31. -/
theorem Nat.land_xffc00000 (x : Nat) :
    x &&& 0xffc00000 = 2 ^ 22 * (x / 2 ^ 22 % 2 ^ 10) := by
  have h := Nat.land_field x 22 10
  rw [Nat.shiftRight_eq_div_pow] at h
  norm_num at h ⊢
  exact h

/-- The L2-index mask `0x3ff000` keeps bits 12..21. -/
theorem Nat.land_x3ff000 (x : Nat) :
    x &&& 0x003ff000 = 2 ^ 12 * (x / 2 ^ 12 % 2 ^ 10) := by
  have h := Nat.land_field x 12 10
  rw [Nat.shiftRight_eq_div_pow] at h
  norm_num at h ⊢
  exact h

/-- Page base plus page offset can be written as a bitwise or, since the
two operands occupy disjoint bit ranges. -/
theorem page_base_add_offset_eq_or (e v : Nat) :
    (e &&& 0xfffff000) + (v &&& 0xfff) = (e &&& 0xfffff000) ||| (v &&& 0xfff) := by
  rw [Nat.land_xfffff000, Nat.land_xfff]
  have hb : v % 2 ^ 12 < 2 ^ 12 := Nat.mod_lt _ (by norm_num)
  exact Nat.mul_add_lt_is_or hb _

/-! ### Claim C2: characterisation of `Mmu::translate_addr` -/

/-- C2.  For every virtual address and permission set, `translate_addr`
fails with `AddrTranslation` exactly when the L1 directory entry selected
by bits [31:22] is unallocated; otherwise, with `entry` the L2 word
selected by bits [21:12], it fails with `Permission` exactly when
`(entry &&& perms) ≠ perms`, and otherwise returns the physical address
`(entry &&& ~0xFFF) ||| (vaddr &&& 0xFFF)`.  (`translate_addr` takes the
MMU immutably, so in this embedding it is a pure function of the state:
the state is unchanged by construction.) -/
theorem translate_addr_spec (m : Mmu) (vaddr perms : Nat) :
    (m.translate_addr vaddr perms = .error .AddrTranslation ↔
      m.page_table ((vaddr &&& 0xffc00000) >>> 22) = Option.none) ∧
    (∀ t2, m.page_table ((vaddr &&& 0xffc00000) >>> 22) = some t2 →
      (m.translate_addr vaddr perms = .error .Permission ↔
        (t2 ((vaddr &&& 0x003ff000) >>> 12) &&& perms) ≠ perms)) ∧
    (∀ t2, m.page_table ((vaddr &&& 0xffc00000) >>> 22) = some t2 →
      (t2 ((vaddr &&& 0x003ff000) >>> 12) &&& perms) = perms →
      m.translate_addr vaddr perms =
        .ok ((t2 ((vaddr &&& 0x003ff000) >>> 12) &&& 0xfffff000) |||
          (vaddr &&& 0xfff))) := by
  rcases h : m.page_table ((vaddr &&& 0xffc00000) >>> 22) with _ | t2
  · refine ⟨by simp [Mmu.translate_addr, h], ?_, ?_⟩ <;>
      · intro t2 ht
        exact absurd ht (by simp)
  · refine ⟨?_, ?_, ?_⟩
    · simp only [Mmu.translate_addr, h]
      constructor
      · intro heq
        by_cases hp : (t2 ((vaddr &&& 0x003ff000) >>> 12) &&& perms) ≠ perms <;>
          simp [hp] at heq
      · intro hn
        exact absurd hn (by simp)
    · intro t2' ht
      injection ht with ht
      subst ht
      simp only [Mmu.translate_addr, h]
      by_cases hp : (t2 ((vaddr &&& 0x003ff000) >>> 12) &&& perms) ≠ perms <;>
        simp [hp]
    · intro t2' ht hperm
      injection ht with ht
      subst ht
      simp only [Mmu.translate_addr, h]
      rw [page_base_add_offset_eq_or]
      simp [hperm]

/-- The concrete MMU used to witness `translate_addr_spec`: one L1 entry
(index 0) whose L2 table maps virtual page 1 to the physical page
`0x5000` with permissions `EXEC|WRITE|READ = 7`. -/
def c2mmu : Mmu :=
  { Mmu.new with
    page_table := fun i =>
      if i = 0 then some (fun j => if j = 1 then 0x5007 else 0)
      else Option.none }

/-- Witness for C2: translating `0x1234` with `READ` permission in `c2mmu`
returns the physical address `0x5234`. -/
theorem translate_addr_spec_witness :
    c2mmu.translate_addr 0x1234 4 = .ok 0x5234 := by
  have h := (translate_addr_spec c2mmu 0x1234 4).2.2
    (fun j => if j = 1 then 0x5007 else 0) rfl (by decide)
  rw [h]
  rfl

/-! ### Claim C7: LRU behaviour of `Mmu::mem_load_from_cache` -/

/-- The concrete MMU used to refute the hit clause of C7: set 0, way 1
holds a valid line with tag 0; the LRU queue is the initial `[0,1,2,3]`. -/
def c7mmu : Mmu :=
  { Mmu.new with
    cache := fun j =>
      if j = 1 then { is_valid := true, tag := 0, data := fun _ => 0xAB }
      else CacheLine.default }

/-- Counterexample for C7.  Reading address 0 in `c7mmu` is a cache hit on
way 1 of set 0, yet the MMU state (including the LRU queue) is returned
unchanged: the queue stays `[0,1,2,3]`, so the referenced way 1 is *not*
moved to the tail of the LRU queue, contrary to the claim. -/
theorem c7_hit_lru_counterexample :
    c7mmu.findHitWay 0 0 = some 1 ∧
    c7mmu.mem_load_from_cache 0 1 = .ok (true, [0xAB], c7mmu) ∧
    c7mmu.lru_queue = [0, 1, 2, 3] ∧ [0, 1, 2, 3] ≠ [0, 2, 3, 1] :=
  ⟨rfl, rfl, rfl, by decide⟩

/-- C7 (amended).  In `mem_load_from_cache`: on a cache hit the MMU state —
in particular the LRU queue — is returned unchanged (the code performs no
LRU update on a hit); on a refill into an invalid way that way is moved to
the tail of the LRU queue; and on an eviction the way popped from the head
of the queue is reused for the refill and appended to the tail. -/
theorem mem_load_from_cache_lru_spec (m : Mmu) (addr len : Nat) :
    (∀ i, m.findHitWay ((addr &&& 0b11111000000) >>> 6) (addr >>> 11) = some i →
      ∃ bytes, m.mem_load_from_cache addr len = .ok (true, bytes, m)) ∧
    (m.findHitWay ((addr &&& 0b11111000000) >>> 6) (addr >>> 11) = Option.none →
      ∀ i, m.findInvalidWay ((addr &&& 0b11111000000) >>> 6) = some i →
      ∀ b bs m', m.mem_load_from_cache addr len = .ok (b, bs, m') →
        m'.lru_queue = lruMoveToBack m.lru_queue i) ∧
    (m.findHitWay ((addr &&& 0b11111000000) >>> 6) (addr >>> 11) = Option.none →
      m.findInvalidWay ((addr &&& 0b11111000000) >>> 6) = Option.none →
      ∀ h t, m.lru_queue = h :: t →
      ∀ b bs m', m.mem_load_from_cache addr len = .ok (b, bs, m') →
        m'.lru_queue = t ++ [h] ∧
        (m'.cache (((addr &&& 0b11111000000) >>> 6) * 4 + h)).is_valid = true ∧
        (m'.cache (((addr &&& 0b11111000000) >>> 6) * 4 + h)).tag = addr >>> 11) := by
  refine ⟨?_, ?_, ?_⟩
  · intro i hi
    simp only [Mmu.mem_load_from_cache, hi]
    exact ⟨_, rfl⟩
  · intro hh i hi b bs m' hr
    simp only [Mmu.mem_load_from_cache, hh, hi] at hr
    rcases hram : m.mem_load_from_ram (addr &&& 0xffffffc0) 64 with e | bytes <;>
      rw [hram] at hr
    · simp at hr
    · simp only [PRes.ok.injEq, Prod.mk.injEq] at hr
      rcases hr with ⟨_, _, hm⟩
      subst hm
      simp [Mmu.setCache]
  · intro hh hinv h t hq b bs m' hr
    simp only [Mmu.mem_load_from_cache, hh, hinv, hq] at hr
    rw [show (⟨m.mem, m.page_table, m.cache, t ++ [h], m.cache_enabled⟩ :
        Mmu).mem_load_from_ram (addr &&& 0xffffffc0) 64 =
        m.mem_load_from_ram (addr &&& 0xffffffc0) 64 from rfl] at hr
    rcases hram : m.mem_load_from_ram (addr &&& 0xffffffc0) 64 with e | bytes <;>
      rw [hram] at hr
    · simp at hr
    · simp only [PRes.ok.injEq, Prod.mk.injEq] at hr
      rcases hr with ⟨_, _, hm⟩
      subst hm
      refine ⟨?_, ?_, ?_⟩ <;> simp [Mmu.setCache]

/-- Witness for C7's amended theorem: applying the hit clause to the
concrete `c7mmu` state. -/
theorem mem_load_from_cache_lru_spec_witness :
    ∃ bytes, c7mmu.mem_load_from_cache 0 1 = .ok (true, bytes, c7mmu) :=
  (mem_load_from_cache_lru_spec c7mmu 0 1).1 1 rfl

/-! ### Claim C10: the 4-byte alignment assertion in `Mmu::mem_read` -/

/-- C10.  `Mmu::mem_read` asserts that the translated physical address is
4-byte aligned for *every* read size (the assertion is checked before the
cache/ram dispatch and does not look at the length).  Consequently a
1-byte (`Ldb`) or 2-byte (`Ldh`) guest load whose effective address is
mapped with `READ` permission but not 4-byte aligned panics, aborting the
process. -/
theorem mem_read_alignment_assert (m : Mmu) (addr len paddr : Nat)
    (htr : m.translate_addr addr 4 = .ok paddr)
    (hlen : len ≤ 4) (hal : paddr % 4 ≠ 0) :
    m.mem_read addr len = .panicked := by
  unfold Mmu.mem_read
  rw [htr]
  have h4 : ¬ (len > 4) := by omega
  simp [h4, Nat.land_3, hal]

/-- The concrete MMU used to witness C10: virtual page 0 is mapped to
physical page `0x3000` with permissions `EXEC|WRITE|READ = 7`. -/
def c10mmu : Mmu :=
  { Mmu.new with
    page_table := fun i =>
      if i = 0 then some (fun j => if j = 0 then 0x3007 else 0)
      else Option.none }

/-- Witness for C10: a 1-byte read of the mapped but unaligned virtual
address 1 panics. -/
theorem mem_read_alignment_assert_witness :
    c10mmu.mem_read 1 1 = .panicked :=
  mem_read_alignment_assert c10mmu 1 1 0x3001 rfl (by omega) (by decide)

/-! ### Claim C3: the write-through cache invariant -/

/-- The 64-byte-aligned physical address of the window a cache line with
this tag and set index caches. -/
def lineWindow (tag setIdx : Nat) : Nat := (tag <<< 11) ||| (setIdx <<< 6)

/-- The cache coherence invariant: every valid line holds exactly the 64
bytes of the physical page window identified by its tag and set index
(and its tag fits in the 21 tag bits). -/
def cacheInv (m : Mmu) : Prop :=
  ∀ j, j < 128 → (m.cache j).is_valid = true →
    (m.cache j).tag < 2 ^ 21 ∧
    ∃ pg, m.mem (lineWindow (m.cache j).tag (j / 4) &&& 0xfffff000) = some pg ∧
      ∀ k, k < 64 →
        (m.cache j).data k = pg ((lineWindow (m.cache j).tag (j / 4) &&& 0xfff) + k)

/-- The LRU queue only ever holds way numbers 0..3. -/
def lruWf (m : Mmu) : Prop := ∀ x ∈ m.lru_queue, x < 4

/-- The full invariant carried through the induction: coherence, LRU
well-formedness, and (when the cache is disabled, in which case writes do
not invalidate) the absence of any valid line. -/
def cacheInvariant (m : Mmu) : Prop :=
  cacheInv m ∧ lruWf m ∧
    (m.cache_enabled = false → ∀ j, j < 128 → (m.cache j).is_valid = false)

/-- An externally driven MMU memory operation (a read — which may fill a
cache line — or a write). -/
inductive MmuOp where
  | read (addr len : Nat)
  | write (addr : Nat) (data : List Nat)

/-- Apply one memory operation to the MMU. -/
def Mmu.applyOp (m : Mmu) : MmuOp → PRes Mmu
  | .read a l =>
      match m.mem_read a l with
      | .ok (_, _, m') => .ok m'
      | .err e => .err e
      | .panicked => .panicked
  | .write a d => m.mem_write a d

/-- Apply a sequence of memory operations to the MMU. -/
def Mmu.applyOps : List MmuOp → Mmu → PRes Mmu
  | [], m => .ok m
  | op :: ops, m =>
      match m.applyOp op with
      | .ok m' => Mmu.applyOps ops m'
      | .err e => .err e
      | .panicked => .panicked

/-- Reading an element of `(List.range n).map f` with default. -/
theorem getD_range_map (f : Nat → Nat) (n k : Nat) (h : k < n) :
    ((List.range n).map f).getD k 0 = f k := by
  rw [List.getD_eq_getElem?_getD, List.getElem?_map, List.getElem?_range h]
  rfl

/-- A successful translation produces a physical address below `2^32`. -/
theorem translate_ok_lt (m : Mmu) (a perms p : Nat)
    (h : m.translate_addr a perms = .ok p) : p < 2 ^ 32 := by
  simp only [Mmu.translate_addr] at h
  cases hpt : m.page_table ((a &&& 0xffc00000) >>> 22) with
  | none =>
    simp only [hpt] at h
    cases h
  | some t2 =>
    simp only [hpt] at h
    by_cases hp : (t2 ((a &&& 0x003ff000) >>> 12) &&& perms) ≠ perms
    · rw [if_pos hp] at h
      cases h
    · rw [if_neg hp] at h
      injection h with h
      subst h
      rw [Nat.land_xfffff000, Nat.land_xfff]
      have h1 : t2 ((a &&& 0x003ff000) >>> 12) / 2 ^ 12 % 2 ^ 20 < 2 ^ 20 :=
        Nat.mod_lt _ (by norm_num)
      have h2 : a % 2 ^ 12 < 2 ^ 12 := Nat.mod_lt _ (by norm_num)
      omega

/-- The window of a line refilled from physical address `p` is the 64-byte
aligned address of `p` (all addresses below `2^32`). -/
theorem lineWindow_refill (p : Nat) (hp : p < 2 ^ 32) :
    lineWindow (p >>> 11) ((p &&& 0b11111000000) >>> 6) = p &&& 0xffffffc0 := by
  unfold lineWindow
  rw [Nat.land_x7c0, Nat.land_xffffffc0, Nat.shiftRight_eq_div_pow,
    Nat.shiftRight_eq_div_pow, Nat.shiftLeft_eq, Nat.shiftLeft_eq]
  have hmul : 2 ^ 6 * (p / 2 ^ 6 % 2 ^ 5) / 2 ^ 6 = p / 2 ^ 6 % 2 ^ 5 := by
    omega
  rw [hmul]
  have hor := Nat.mul_add_lt_is_or
    (b := p / 2 ^ 6 % 2 ^ 5 * 2 ^ 6) (i := 11) (by
      have := Nat.mod_lt (p / 2 ^ 6) (show 0 < 2 ^ 5 by norm_num)
      omega) (p / 2 ^ 11)
  rw [mul_comm (2 ^ 11) (p / 2 ^ 11)] at hor
  rw [← hor]
  omega

/-- The window of a line, written arithmetically. -/
theorem lineWindow_arith (t s : Nat) (hs : s < 32) :
    lineWindow t s = 2048 * t + 64 * s := by
  unfold lineWindow
  rw [Nat.shiftLeft_eq, Nat.shiftLeft_eq]
  have hor := Nat.mul_add_lt_is_or (b := s * 2 ^ 6) (i := 11) (by omega) t
  rw [mul_comm (2 ^ 11) t] at hor
  rw [← hor]
  ring

/-- A way found by `findInvalidWay` is one of the four ways of the set and
is indeed invalid. -/
theorem findInvalidWay_spec (m : Mmu) (idx i : Nat)
    (h : m.findInvalidWay idx = some i) :
    i < 4 ∧ (m.cache (idx * 4 + i)).is_valid = false := by
  unfold Mmu.findInvalidWay at h
  have hmem := List.mem_of_find?_eq_some h
  have hp := List.find?_some h
  simp only [List.mem_range] at hmem
  simp only [Bool.not_eq_true'] at hp
  exact ⟨hmem, hp⟩

/-- A way found by `findHitWay` is one of the four ways, is valid and has
the probed tag. -/
theorem findHitWay_spec (m : Mmu) (idx tag i : Nat)
    (h : m.findHitWay idx tag = some i) :
    i < 4 ∧ (m.cache (idx * 4 + i)).is_valid = true ∧
      (m.cache (idx * 4 + i)).tag = tag := by
  unfold Mmu.findHitWay at h
  have hmem := List.mem_of_find?_eq_some h
  have hp := List.find?_some h
  simp only [List.mem_range] at hmem
  simp only [Bool.and_eq_true, beq_iff_eq] at hp
  exact ⟨hmem, hp.2, hp.1.symm⟩

/-- Elements of the queue after an LRU move come from the old queue or are
the moved way. -/
theorem lruMoveToBack_mem (q : List Nat) (i x : Nat)
    (h : x ∈ lruMoveToBack q i) : x ∈ q ∨ x = i := by
  unfold lruMoveToBack at h
  split at h
  · rcases List.mem_append.mp h with h' | h'
    · exact Or.inl (List.mem_of_mem_erase h')
    · simp at h'
      exact Or.inr h'
  · exact Or.inl h

/-- `mem_load_from_cache` (the cache-fill path of an MMU read) preserves
the cache invariant, provided the cache is enabled and the physical
address is a `u32`. -/
theorem cacheInvariant_load (m : Mmu) (p len : Nat) (hp : p < 2 ^ 32)
    (he : m.cache_enabled = true) (hinv : cacheInvariant m)
    (b : Bool) (bs : List Nat) (m' : Mmu)
    (h : m.mem_load_from_cache p len = .ok (b, bs, m')) :
    cacheInvariant m' := by
  rcases hinv with ⟨hcoh, hlru, hdis⟩
  rcases hh : m.findHitWay ((p &&& 0b11111000000) >>> 6) (p >>> 11) with _ | i
  case some =>
    simp only [Mmu.mem_load_from_cache, hh, PRes.ok.injEq, Prod.mk.injEq] at h
    rcases h with ⟨_, _, hm⟩
    subst hm
    exact ⟨hcoh, hlru, hdis⟩
  case none =>
  rcases hi : m.findInvalidWay ((p &&& 0b11111000000) >>> 6) with _ | i
  case some =>
    obtain ⟨hi4, _⟩ := findInvalidWay_spec m _ _ hi
    simp only [Mmu.mem_load_from_cache, hh, hi, Mmu.mem_load_from_ram] at h
    rcases hpg : m.mem ((p &&& 0xffffffc0) &&& 0xfffff000) with _ | page
    · simp only [hpg] at h
      cases h
    case some =>
    simp only [hpg, PRes.ok.injEq, Prod.mk.injEq] at h
    rcases h with ⟨_, _, hm⟩
    subst hm
    refine ⟨?_, ?_, ?_⟩
    · intro j hj hv
      by_cases hji : j = ((p &&& 0b11111000000) >>> 6) * 4 + i
      · subst hji
        simp [Mmu.setCache] at hv ⊢
        have hdiv : (((p &&& 0b11111000000) >>> 6) * 4 + i) / 4 =
            (p &&& 0b11111000000) >>> 6 := by omega
        rw [hdiv]
        have htag : p >>> 11 < 2 ^ 21 := by
          rw [Nat.shiftRight_eq_div_pow]
          omega
        refine ⟨htag, page, ?_, ?_⟩
        · rw [lineWindow_refill p hp, hpg]
        · intro k hk
          rw [lineWindow_refill p hp, List.getElem?_range hk]
          rfl
      · simp only [Mmu.setCache, if_neg hji] at hv ⊢
        exact hcoh j hj hv
    · intro x hx
      simp only [Mmu.setCache] at hx
      rcases lruMoveToBack_mem _ _ _ hx with h' | h'
      · exact hlru x h'
      · omega
    · intro hdis'
      simp only [Mmu.setCache] at hdis'
      rw [he] at hdis'
      cases hdis'
  case none =>
  rcases hq : m.lru_queue with _ | ⟨w, t⟩
  case nil =>
    simp only [Mmu.mem_load_from_cache, hh, hi, hq] at h
    cases h
  case cons =>
    have hw : w < 4 := hlru w (by rw [hq]; exact List.mem_cons_self w t)
    simp only [Mmu.mem_load_from_cache, hh, hi, hq, Mmu.mem_load_from_ram] at h
    rcases hpg : m.mem ((p &&& 0xffffffc0) &&& 0xfffff000) with _ | page
    · simp only [hpg] at h
      cases h
    case some =>
    simp only [hpg, PRes.ok.injEq, Prod.mk.injEq] at h
    rcases h with ⟨_, _, hm⟩
    subst hm
    refine ⟨?_, ?_, ?_⟩
    · intro j hj hv
      by_cases hji : j = ((p &&& 0b11111000000) >>> 6) * 4 + w
      · subst hji
        simp [Mmu.setCache] at hv ⊢
        have hdiv : (((p &&& 0b11111000000) >>> 6) * 4 + w) / 4 =
            (p &&& 0b11111000000) >>> 6 := by omega
        rw [hdiv]
        have htag : p >>> 11 < 2 ^ 21 := by
          rw [Nat.shiftRight_eq_div_pow]
          omega
        refine ⟨htag, page, ?_, ?_⟩
        · rw [lineWindow_refill p hp, hpg]
        · intro k hk
          rw [lineWindow_refill p hp, List.getElem?_range hk]
          rfl
      · simp only [Mmu.setCache, if_neg hji] at hv ⊢
        exact hcoh j hj hv
    · intro x hx
      simp only [Mmu.setCache] at hx
      rcases List.mem_append.mp hx with h' | h'
      · exact hlru x (by rw [hq]; exact List.mem_cons_of_mem w h')
      · simp at h'
        omega
    · intro hdis'
      simp only [Mmu.setCache] at hdis'
      rw [he] at hdis'
      cases hdis'

/-- Invalidation never changes the backing memory. -/
theorem invalidate_mem (m : Mmu) (p : Nat) :
    (m.mem_invalidate_cache p).mem = m.mem := rfl

/-- Invalidation never changes the LRU queue. -/
theorem invalidate_lru (m : Mmu) (p : Nat) :
    (m.mem_invalidate_cache p).lru_queue = m.lru_queue := rfl

/-- Invalidation never changes the cache-enable flag. -/
theorem invalidate_enabled (m : Mmu) (p : Nat) :
    (m.mem_invalidate_cache p).cache_enabled = m.cache_enabled := rfl

/-- Every line after an invalidation is either untouched or the same line
with its valid bit cleared. -/
theorem invalidate_cases (m : Mmu) (p j : Nat) :
    (m.mem_invalidate_cache p).cache j = m.cache j ∨
    (m.mem_invalidate_cache p).cache j = { m.cache j with is_valid := false } := by
  unfold Mmu.mem_invalidate_cache
  dsimp only
  split
  · exact Or.inr rfl
  · exact Or.inl rfl

/-- A line still valid after an invalidation was untouched, was valid
before, and is not a matching line of the addressed set. -/
theorem invalidate_survivor (m : Mmu) (p j : Nat)
    (hv : ((m.mem_invalidate_cache p).cache j).is_valid = true) :
    (m.mem_invalidate_cache p).cache j = m.cache j ∧
    (m.cache j).is_valid = true ∧
    ¬((((p &&& 0b11111000000) >>> 6) * 4 ≤ j ∧
        j < ((p &&& 0b11111000000) >>> 6) * 4 + 4) ∧
      p >>> 11 = (m.cache j).tag) := by
  unfold Mmu.mem_invalidate_cache at hv ⊢
  dsimp only at hv ⊢
  by_cases hcond : (((p &&& 0b11111000000) >>> 6) * 4 ≤ j ∧
      j < ((p &&& 0b11111000000) >>> 6) * 4 + 4) ∧
      p >>> 11 = (m.cache j).tag ∧ (m.cache j).is_valid = true
  · rw [if_pos hcond] at hv
    cases hv
  · rw [if_neg hcond] at hv ⊢
    refine ⟨rfl, hv, ?_⟩
    intro ⟨hset, htag⟩
    exact hcond ⟨hset, htag, hv⟩

/-- A matching line of the addressed set is invalid after invalidation. -/
theorem invalidate_matching (m : Mmu) (p j : Nat)
    (hset : (((p &&& 0b11111000000) >>> 6) * 4 ≤ j ∧
      j < ((p &&& 0b11111000000) >>> 6) * 4 + 4))
    (htag : p >>> 11 = (m.cache j).tag) :
    ((m.mem_invalidate_cache p).cache j).is_valid = false := by
  unfold Mmu.mem_invalidate_cache
  dsimp only
  by_cases hcond : (((p &&& 0b11111000000) >>> 6) * 4 ≤ j ∧
      j < ((p &&& 0b11111000000) >>> 6) * 4 + 4) ∧
      p >>> 11 = (m.cache j).tag ∧ (m.cache j).is_valid = true
  · rw [if_pos hcond]
  · rw [if_neg hcond]
    rcases hb : (m.cache j).is_valid
    · rfl
    · exact absurd ⟨hset, htag, hb⟩ hcond

/-- The geometric heart of the write-through invariant: a surviving line
(same page as the write, but not the matching (set, tag) pair) cannot
overlap the ≤4-byte aligned write range. -/
theorem line_write_disjoint (t s p len : Nat)
    (ht : t < 2 ^ 21) (hs : s < 32) (hp : p < 2 ^ 32)
    (hlen : len = 1 ∨ (len = 2 ∧ p % 2 = 0) ∨ (len = 4 ∧ p % 4 = 0))
    (hbase : lineWindow t s &&& 0xfffff000 = p &&& 0xfffff000)
    (hne : ¬(s = (p &&& 0b11111000000) >>> 6 ∧ p >>> 11 = t))
    (k : Nat) (hk : k < 64) :
    ¬((p &&& 0xfff) ≤ (lineWindow t s &&& 0xfff) + k ∧
      (lineWindow t s &&& 0xfff) + k < (p &&& 0xfff) + len) := by
  rw [lineWindow_arith t s hs] at hbase ⊢
  rw [Nat.land_xfffff000, Nat.land_xfffff000] at hbase
  rw [Nat.land_xfff, Nat.land_xfff]
  rw [Nat.land_x7c0, Nat.shiftRight_eq_div_pow, Nat.shiftRight_eq_div_pow] at hne
  omega

/-- Inversion of a successful `mem_write`: the translation succeeded, the
size/alignment assertions held, the backing page existed, and the result
state is the (possibly cache-invalidated) state with the page updated. -/
theorem mem_write_inv (m : Mmu) (addr : Nat) (data : List Nat) (m' : Mmu)
    (h : m.mem_write addr data = .ok m') :
    ∃ p page, m.translate_addr addr 2 = .ok p ∧
      (data.length = 1 ∨ (data.length = 2 ∧ p % 2 = 0) ∨
        (data.length = 4 ∧ p % 4 = 0)) ∧
      m.mem (p &&& 0xfffff000) = some page ∧
      m' = { (if m.cache_enabled then m.mem_invalidate_cache p else m) with
              mem := fun b =>
                if b = p &&& 0xfffff000 then
                  some (fun o =>
                    if (p &&& 0xfff) ≤ o ∧ o < (p &&& 0xfff) + data.length then
                      data.getD (o - (p &&& 0xfff)) 0
                    else page o)
                else (if m.cache_enabled then m.mem_invalidate_cache p
                  else m).mem b } := by
  simp only [Mmu.mem_write] at h
  cases htr : m.translate_addr addr 2 with
  | error e =>
      simp only [htr] at h
      cases h
  | ok p =>
      simp only [htr] at h
      by_cases h4 : data.length > 4
      · rw [if_pos h4] at h
        cases h
      rw [if_neg h4] at h
      by_cases h2 : data.length = 2 ∧ p &&& 0x1 ≠ 0
      · rw [if_pos h2] at h
        cases h
      rw [if_neg h2] at h
      by_cases h3 : data.length = 4 ∧ p &&& 0x3 ≠ 0
      · rw [if_pos h3] at h
        cases h
      rw [if_neg h3] at h
      by_cases h03 : data.length = 0 ∨ data.length = 3
      · rw [if_pos h03] at h
        cases h
      rw [if_neg h03] at h
      cases hpg : (if m.cache_enabled then m.mem_invalidate_cache p else m).mem
          (p &&& 0xfffff000) with
      | none =>
          rw [hpg] at h
          cases h
      | some page =>
          rw [hpg] at h
          have hpg' : m.mem (p &&& 0xfffff000) = some page := by
            rcases hen : m.cache_enabled <;> rw [hen] at hpg <;> simpa using hpg
          refine ⟨p, page, rfl, ?_, hpg', ?_⟩
          · rw [Nat.land_1] at h2
            rw [Nat.land_3] at h3
            omega
          · injection h with h
            exact h.symm

/-- `mem_write` preserves the cache invariant: invalidation removes every
line of the addressed set with the written tag, and the ≤4-byte aligned
write-through cannot overlap the windows of the surviving lines. -/
theorem cacheInvariant_write (m : Mmu) (addr : Nat) (data : List Nat)
    (m' : Mmu) (hinv : cacheInvariant m) (h : m.mem_write addr data = .ok m') :
    cacheInvariant m' := by
  rcases hinv with ⟨hcoh, hlru, hdis⟩
  obtain ⟨p, page, htr, hlen, hpg, hm'⟩ := mem_write_inv m addr data m' h
  have hp32 := translate_ok_lt m addr 2 p htr
  subst hm'
  cases hen : m.cache_enabled with
  | false =>
      rw [hen] at hdis
      refine ⟨?_, ?_, ?_⟩
      · intro j hj hv
        simp only [hen, if_false, Bool.false_eq_true] at hv
        rw [hdis rfl j hj] at hv
        cases hv
      · intro x hx
        simp only [hen, Bool.false_eq_true, if_false] at hx
        exact hlru x hx
      · intro _ j hj
        simp only [hen, Bool.false_eq_true, if_false]
        exact hdis rfl j hj
  | true =>
      refine ⟨?_, ?_, ?_⟩
      · intro j hj hv
        simp only [hen, if_true] at hv ⊢
        obtain ⟨heq, hvold, hnot⟩ := invalidate_survivor m p j hv
        obtain ⟨htag, pg0, hpg0, hdata⟩ := hcoh j hj hvold
        rw [heq] at hv ⊢
        refine ⟨htag, ?_⟩
        by_cases hbase :
            lineWindow (m.cache j).tag (j / 4) &&& 0xfffff000 = p &&& 0xfffff000
        · have hpg0' : pg0 = page := by
            rw [hbase, hpg] at hpg0
            injection hpg0 with hpg0
            exact hpg0.symm
          subst hpg0'
          refine ⟨fun o =>
            if (p &&& 0xfff) ≤ o ∧ o < (p &&& 0xfff) + data.length then
              data.getD (o - (p &&& 0xfff)) 0
            else pg0 o, ?_, ?_⟩
          · simp [hbase]
          · intro k hk
            have hdisj := line_write_disjoint (m.cache j).tag (j / 4) p
              data.length htag (by omega) hp32 hlen hbase
              (by
                intro ⟨hss, htt⟩
                exact hnot ⟨by omega, htt⟩) k hk
            dsimp only
            rw [if_neg hdisj]
            exact hdata k hk
        · refine ⟨pg0, ?_, hdata⟩
          simp only [hen, if_true, invalidate_mem] at hbase ⊢
          rw [if_neg hbase]
          exact hpg0
      · intro x hx
        simp only [hen, if_true, invalidate_lru] at hx
        exact hlru x hx
      · intro hfalse
        simp only [hen, if_true, invalidate_enabled] at hfalse
        cases hfalse

/-- `mem_read` preserves the cache invariant. -/
theorem cacheInvariant_read (m : Mmu) (a l : Nat) (hinv : cacheInvariant m)
    (b : Bool) (bs : List Nat) (m' : Mmu)
    (h : m.mem_read a l = .ok (b, bs, m')) : cacheInvariant m' := by
  simp only [Mmu.mem_read] at h
  cases htr : m.translate_addr a 4 with
  | error e =>
      simp only [htr] at h
      cases h
  | ok p =>
      simp only [htr] at h
      by_cases h4 : l > 4
      · rw [if_pos h4] at h
        cases h
      rw [if_neg h4] at h
      by_cases hal : p &&& 0x3 ≠ 0
      · rw [if_pos hal] at h
        cases h
      rw [if_neg hal] at h
      cases hen : m.cache_enabled with
      | true =>
          rw [hen] at h
          simp only [if_true] at h
          exact cacheInvariant_load m p l (translate_ok_lt m a 4 p htr) hen hinv
            b bs m' h
      | false =>
          rw [hen] at h
          simp only [Bool.false_eq_true, if_false] at h
          cases hram : m.mem_load_from_ram p l with
          | error e =>
              rw [hram] at h
              cases h
          | ok bytes =>
              rw [hram] at h
              simp only [PRes.ok.injEq, Prod.mk.injEq] at h
              rcases h with ⟨_, _, hm⟩
              subst hm
              exact hinv

/-- A flushed cache satisfies the invariant (no valid lines, fresh LRU). -/
theorem cacheInvariant_clear (m : Mmu) : cacheInvariant m.clear_caches := by
  refine ⟨?_, ?_, ?_⟩
  · intro j _ hv
    cases hv
  · intro x hx
    have hx' : x = 0 ∨ x = 1 ∨ x = 2 ∨ x = 3 := by
      simpa [Mmu.clear_caches] using hx
    omega
  · intro _ j _
    rfl

/-- Applying a sequence of reads and writes preserves the invariant. -/
theorem cacheInvariant_applyOps (ops : List MmuOp) (m m' : Mmu)
    (hinv : cacheInvariant m) (h : Mmu.applyOps ops m = .ok m') :
    cacheInvariant m' := by
  induction ops generalizing m with
  | nil =>
      simp only [Mmu.applyOps, PRes.ok.injEq] at h
      subst h
      exact hinv
  | cons op ops ih =>
      simp only [Mmu.applyOps] at h
      cases hop : m.applyOp op with
      | ok m1 =>
          rw [hop] at h
          refine ih m1 ?_ h
          cases op with
          | read a l =>
              simp only [Mmu.applyOp] at hop
              cases hrd : m.mem_read a l with
              | ok res =>
                  rw [hrd] at hop
                  injection hop with hop
                  subst hop
                  exact cacheInvariant_read m a l hinv res.1 res.2.1 res.2.2
                    (by rw [hrd])
              | err e =>
                  rw [hrd] at hop
                  cases hop
              | panicked =>
                  rw [hrd] at hop
                  cases hop
          | write a d =>
              simp only [Mmu.applyOp] at hop
              exact cacheInvariant_write m a d m1 hinv hop
      | err e =>
          rw [hop] at h
          cases h
      | panicked =>
          rw [hop] at h
          cases h

/-- The full characterisation of a successful `mem_write` on a state
satisfying the invariant: matching lines of the addressed set are
invalidated, no line is allocated or otherwise modified, and the data is
written through to the backing page. -/
theorem mem_write_char (m : Mmu) (addr : Nat) (data : List Nat) (m' : Mmu)
    (p : Nat) (hinv : cacheInvariant m)
    (htr : m.translate_addr addr 2 = .ok p)
    (h : m.mem_write addr data = .ok m') :
    (∀ j, (((p &&& 0b11111000000) >>> 6) * 4 ≤ j ∧
        j < ((p &&& 0b11111000000) >>> 6) * 4 + 4) →
      (m'.cache j).tag = p >>> 11 → (m'.cache j).is_valid = false) ∧
    (∀ j, m'.cache j = m.cache j ∨
      m'.cache j = { m.cache j with is_valid := false }) ∧
    (∀ b, b ≠ p &&& 0xfffff000 → m'.mem b = m.mem b) ∧
    (∃ pg, m.mem (p &&& 0xfffff000) = some pg ∧
      m'.mem (p &&& 0xfffff000) = some (fun o =>
        if (p &&& 0xfff) ≤ o ∧ o < (p &&& 0xfff) + data.length then
          data.getD (o - (p &&& 0xfff)) 0
        else pg o)) := by
  obtain ⟨p', page, htr', hlen, hpg, hm'⟩ := mem_write_inv m addr data m' h
  rw [htr] at htr'
  injection htr' with htr'
  subst htr'
  subst hm'
  refine ⟨?_, ?_, ?_, ?_⟩
  · intro j hset htag
    cases hen : m.cache_enabled with
    | true =>
        simp only [hen, if_true] at htag ⊢
        have htag' : p >>> 11 = (m.cache j).tag := by
          rcases invalidate_cases m p j with hc | hc <;> rw [hc] at htag <;>
            exact htag.symm
        exact invalidate_matching m p j hset htag'
    | false =>
        simp only [hen, Bool.false_eq_true, if_false] at htag ⊢
        rcases hinv with ⟨_, _, hdis⟩
        have hidx : (p &&& 0b11111000000) >>> 6 < 32 := by
          rw [Nat.land_x7c0, Nat.shiftRight_eq_div_pow]
          omega
        exact hdis hen j (by omega)
  · intro j
    cases hen : m.cache_enabled with
    | true =>
        simp only [hen, if_true]
        exact invalidate_cases m p j
    | false =>
        simp [hen]
  · intro b hb
    cases hen : m.cache_enabled with
    | true => simp only [hen, if_true, invalidate_mem, if_neg hb]
    | false => simp only [hen, Bool.false_eq_true, if_false, if_neg hb]
  · refine ⟨page, hpg, ?_⟩
    simp

/-- C3.  (1) After any sequence of MMU reads and writes (cache fills
happen inside reads) starting from a freshly initialized or flushed cache
(`Mmu::new` equals `clear_caches` of itself), every cache line whose valid
flag is true holds exactly the 64 bytes of the physical page window
identified by its tag and set index.  (2) Every successful `mem_write`
leaves every matching line of the addressed set invalid, modifies no cache
line beyond clearing valid flags (write-no-allocate), and writes the data
through to the backing page, leaving all other pages untouched. -/
theorem cache_write_through_spec :
    (∀ (ops : List MmuOp) (m0 m' : Mmu),
      Mmu.applyOps ops m0.clear_caches = .ok m' → cacheInv m') ∧
    (∀ (m : Mmu) (addr : Nat) (data : List Nat) (m' : Mmu) (p : Nat),
      cacheInvariant m → m.translate_addr addr 2 = .ok p →
      m.mem_write addr data = .ok m' →
      (∀ j, (((p &&& 0b11111000000) >>> 6) * 4 ≤ j ∧
          j < ((p &&& 0b11111000000) >>> 6) * 4 + 4) →
        (m'.cache j).tag = p >>> 11 → (m'.cache j).is_valid = false) ∧
      (∀ j, m'.cache j = m.cache j ∨
        m'.cache j = { m.cache j with is_valid := false }) ∧
      (∀ b, b ≠ p &&& 0xfffff000 → m'.mem b = m.mem b) ∧
      (∃ pg, m.mem (p &&& 0xfffff000) = some pg ∧
        m'.mem (p &&& 0xfffff000) = some (fun o =>
          if (p &&& 0xfff) ≤ o ∧ o < (p &&& 0xfff) + data.length then
            data.getD (o - (p &&& 0xfff)) 0
          else pg o))) := by
  constructor
  · intro ops m0 m' h
    exact (cacheInvariant_applyOps ops m0.clear_caches m'
      (cacheInvariant_clear m0) h).1
  · intro m addr data m' p hinv htr h
    exact mem_write_char m addr data m' p hinv htr h

/-- The concrete MMU used to witness C3: virtual page 1 maps to physical
page `0x5000` (permissions `EXEC|WRITE|READ = 7`), which is present in
physical memory as a zero page. -/
def c3mmu : Mmu :=
  { Mmu.new with
    page_table := fun i =>
      if i = 0 then some (fun j => if j = 1 then 0x5007 else 0)
      else Option.none
    mem := fun b => if b = 0x5000 then some (fun _ => 0) else Option.none }

/-- Witness for C3: a 2-byte write followed by a 4-byte read (which fills
a line) executes successfully from the flushed `c3mmu`, and the final
state satisfies the coherence property. -/
theorem cache_write_through_spec_witness :
    ∃ m', Mmu.applyOps [MmuOp.write 0x1234 [7, 8], MmuOp.read 0x1230 4]
        c3mmu.clear_caches = .ok m' ∧ cacheInv m' := by
  obtain ⟨m', hm⟩ :
      ∃ m', Mmu.applyOps [MmuOp.write 0x1234 [7, 8], MmuOp.read 0x1230 4]
        c3mmu.clear_caches = .ok m' := ⟨_, rfl⟩
  exact ⟨m', hm, cache_write_through_spec.1 _ _ _ hm⟩

/-! ### The simulator (`simulator.rs`, `pipeline.rs`)

The simulator state and the per-cycle step functions.  Panics are a
`none`/`panicked` outcome; Rust `Err` values that the step loop catches
are a `fault` carrying the mutated state, exactly as the `&mut self`
borrow keeps mutations that happened before the `return Err`. -/

/-- A pipeline slot (`Slot` in `pipeline.rs`). -/
structure Slot where
  valid : Bool
  instr : Instr
  instr_backing : Nat
  rs1 : Nat
  rs2 : Nat
  rs3 : Nat
  imm : Int
  offset : Int
  addr : Nat
  pc : Nat
  disable : Bool
  mem_stall : Option Nat
deriving DecidableEq, Repr

/-- `Slot::default`. -/
def Slot.default : Slot :=
  { valid := false, instr := .None, instr_backing := 0, rs1 := 0, rs2 := 0,
    rs3 := 0, imm := 0, offset := 0, addr := 0, pc := 0, disable := false,
    mem_stall := Option.none }

/-- The pipeline (`Pipeline` in `pipeline.rs`).  The five slots are a
function from slot number (0..4) to `Slot`. -/
structure Pipeline where
  pc : Nat
  slots : Nat → Slot
  disable : Bool
  hazard_thrower : Option Nat
  cur_stage : Nat

/-- `Pipeline::default`. -/
def Pipeline.default : Pipeline :=
  { pc := 0, slots := fun _ => Slot.default, disable := false,
    hazard_thrower := Option.none, cur_stage := 0 }

/-- Statistics counters (`Stats` in `lib.rs`).  The Rust fields are `f64`
used only as counters incremented by `1.0`; they are modelled as `Nat`. -/
structure Stats where
  cache_hits : Nat
  cache_misses : Nat
  mem_clock : Nat
  control_instrs : Nat
  load_instrs : Nat
  store_instrs : Nat
  arithmetic_instrs : Nat
  total_instrs : Nat
deriving DecidableEq, Repr

/-- `Stats::default`. -/
def Stats.default : Stats :=
  { cache_hits := 0, cache_misses := 0, mem_clock := 0, control_instrs := 0,
    load_instrs := 0, store_instrs := 0, arithmetic_instrs := 0,
    total_instrs := 0 }

/-- The simulator state (`Simulator` in `simulator.rs`).  GUI-only fields
(`cur_mem`, `cur_cache_set`, `breakpoints`, the VGA screen contents) are
not tracked; `rng_stream`/`rng_idx` model the `rand::thread_rng` draws
made by the MMIO random-number command. -/
structure Simulator where
  mmu : Mmu
  pipeline : Pipeline
  gen_regs : Nat → Nat
  clock : Nat
  pc : Nat
  online : Bool
  pipelining_enabled : Bool
  stats : Stats
  rng_stream : Nat → Nat
  rng_idx : Nat

/-- `Simulator::new` (with a given RNG oracle stream). -/
def Simulator.new (rng : Nat → Nat) : Simulator :=
  { mmu := Mmu.new, pipeline := Pipeline.default, gen_regs := fun _ => 0,
    clock := 0, pc := 0, online := true, pipelining_enabled := true,
    stats := Stats.default, rng_stream := rng, rng_idx := 0 }

/-- Result of a simulator-level operation: Rust `Ok` (with the mutated
state), Rust `Err` (with the state as mutated before the `return Err`),
or a Rust panic. -/
inductive StepRes (α : Type) where
  | ok (a : α) (s : Simulator)
  | fault (e : SimErr) (s : Simulator)
  | panicked

/-- `Simulator::read_reg`. -/
def Simulator.read_reg (s : Simulator) (reg : Nat) : Nat := s.gen_regs reg

/-- `Simulator::write_reg`: the zero register R0 is never written. -/
def Simulator.write_reg (s : Simulator) (reg val : Nat) : Simulator :=
  if reg ≠ 0 then
    { s with gen_regs := fun r => if r = reg then val else s.gen_regs r }
  else s

/-- Overwrite one pipeline slot. -/
def Simulator.setSlot (s : Simulator) (i : Nat) (sl : Slot) : Simulator :=
  { s with pipeline := { s.pipeline with
      slots := fun j => if j = i then sl else s.pipeline.slots j } }

/-- `Simulator::mem_read` (the wrapper around `Mmu::mem_read` that counts
cache hits and misses).  The Rust wrapper chops reads into ≤4-byte chunks;
every call site inside `step` passes 1, 2 or 4 bytes, for which the loop
runs exactly once, which is what this models. -/
def Simulator.mem_read (s : Simulator) (addr len : Nat) : StepRes (List Nat) :=
  match s.mmu.mem_read addr len with
  | .ok (hit, bytes, mmu') =>
      let s := { s with mmu := mmu' }
      let s :=
        if hit then
          { s with stats := { s.stats with cache_hits := s.stats.cache_hits + 1 } }
        else
          { s with stats := { s.stats with cache_misses := s.stats.cache_misses + 1 } }
      .ok bytes s
  | .err e => .fault e s
  | .panicked => .panicked

/-- The chunking loop of `Simulator::mem_write`: write ≤4-byte chunks
through `Mmu::mem_write`, advancing the address. -/
def mmuWriteChunks : Mmu → Nat → List Nat → PRes Mmu
  | m, _, [] => .ok m
  | m, a, b0 :: b1 :: b2 :: b3 :: rest =>
      match m.mem_write a [b0, b1, b2, b3] with
      | .ok m' => mmuWriteChunks m' (u32 (a + 4)) rest
      | .err e => .err e
      | .panicked => .panicked
  | m, a, data =>
      match m.mem_write a data with
      | .ok m' => .ok m'
      | .err e => .err e
      | .panicked => .panicked

/-- `Simulator::mem_write`: chunked write-through, then the MMIO control
register at `0x2000` (`0x41` shutdown, `0x42` clock into R1, `0x43`
random into R1), then the VGA range check (whose assertion can panic). -/
def Simulator.mem_write (s : Simulator) (addr : Nat) (writer : List Nat) :
    StepRes Nat :=
  match mmuWriteChunks s.mmu addr writer with
  | .err e => .fault e s
  | .panicked => .panicked
  | .ok mmu' =>
      let s := { s with mmu := mmu' }
      if addr = 0x2000 ∧ writer = [] then .panicked
      else if addr = 0x2000 ∧ writer.getD 0 0 = 0x41 then
        .fault .Shutdown { s with online := false }
      else
        let s :=
          if addr = 0x2000 ∧ writer.getD 0 0 = 0x42 then
            s.write_reg 1 s.clock
          else if addr = 0x2000 ∧ writer.getD 0 0 = 0x43 then
            { (s.write_reg 1 (u32 (s.rng_stream s.rng_idx))) with
                rng_idx := s.rng_idx + 1 }
          else s
        if 0x1000 ≤ addr ∧ addr ≤ 0x10f0 then
          if addr + writer.length < 0x1000 + 240 then .ok 1 s else .panicked
        else .ok 1 s

/-- The stage-3 half of `process_mem_stalls` (the slot-3 memory-stall
bookkeeping and the final `Ok(false)`). -/
def Simulator.pms_stage3 (s : Simulator) (check_stage_3 : Bool) : StepRes Bool :=
  if check_stage_3 then
    match (s.pipeline.slots 3).mem_stall with
    | Option.none =>
        let accessed_addr : Option Nat :=
          match (s.pipeline.slots 3).instr with
          | .Ret => some (s.read_reg 15)
          | .Call _ _ => some (u32sub (s.read_reg 15) 4)
          | .Int0 => some 0
          | .Ldb _ _ _ | .Ldh _ _ _ | .Ld _ _ _
          | .Stb _ _ _ | .Sth _ _ _ | .St _ _ _ =>
              some (s.pipeline.slots 3).addr
          | _ => Option.none
        match accessed_addr with
        | some a =>
            match s.mmu.translate_addr a 4 with
            | .error e => .fault e s
            | .ok pa =>
                let stall := if s.mmu.addr_in_cache pa then L1_CACHE_STALL - 1
                  else RAM_STALL - 1
                let s := s.setSlot 3
                  { s.pipeline.slots 3 with mem_stall := some stall }
                let s := { s with stats :=
                  { s.stats with mem_clock := s.stats.mem_clock + 1 } }
                .ok true s
        | Option.none => .ok false s
    | some stall_time =>
        if stall_time ≠ 0 then
          let s := s.setSlot 3
            { s.pipeline.slots 3 with mem_stall := some (stall_time - 1) }
          let s := { s with stats :=
            { s.stats with mem_clock := s.stats.mem_clock + 1 } }
          .ok true s
        else .ok false s
  else .ok false s

/-- `Simulator::process_mem_stalls`: returns `true` when this cycle is a
memory-stall cycle (no stage fires), `false` otherwise. -/
def Simulator.process_mem_stalls (s : Simulator)
    (check_stage_0 check_stage_3 : Bool) : StepRes Bool :=
  if ¬ s.pipeline.disable ∧ check_stage_0 = true then
    match (s.pipeline.slots 0).mem_stall with
    | Option.none =>
        match s.mmu.translate_addr s.pipeline.pc 4 with
        | .error e => .fault e s
        | .ok pa =>
            let stall := if s.mmu.addr_in_cache pa then L1_CACHE_STALL - 1
              else RAM_STALL - 1
            let s := s.setSlot 0
              { s.pipeline.slots 0 with mem_stall := some stall }
            let s := { s with stats :=
              { s.stats with mem_clock := s.stats.mem_clock + 1 } }
            .ok true s
    | some stall_time =>
        if stall_time ≠ 0 then
          let s := s.setSlot 0
            { s.pipeline.slots 0 with mem_stall := some (stall_time - 1) }
          let s := { s with stats :=
            { s.stats with mem_clock := s.stats.mem_clock + 1 } }
          .ok true s
        else s.pms_stage3 check_stage_3
  else s.pms_stage3 check_stage_3

/-- `Simulator::pl_fetch_stage`: read the next instruction word at the
pipeline PC into slot 0 and advance the pipeline PC by 4. -/
def Simulator.pl_fetch_stage (s : Simulator) : StepRes Unit :=
  match s.mem_read s.pipeline.pc 4 with
  | .fault e s' => .fault e s'
  | .panicked => .panicked
  | .ok reader s' =>
      let raw := as_u32_le reader
      let s' := s'.setSlot 0 { s'.pipeline.slots 0 with
        instr_backing := raw, valid := true, pc := s'.pipeline.pc }
      let s' := { s' with pipeline :=
        { s'.pipeline with pc := u32 (s'.pipeline.pc + 4) } }
      .ok () s'

/-- `Simulator::caused_data_hazards`: scan the slots after `cur_stage` for
instructions that write a register this instruction reads; on a hazard,
disable the pipeline and the slots at and below `cur_stage`. -/
def Simulator.caused_data_hazards (s : Simulator) (cur_stage : Nat)
    (reg_uses : List Nat) : Bool × Simulator :=
  let hazard := (List.range' (cur_stage + 1) (4 - cur_stage)).any (fun i =>
    (s.pipeline.slots i).valid &&
      (s.pipeline.slots i).instr.writes_to_rs3.any (fun w => reg_uses.contains w))
  if hazard then
    let p := { s.pipeline with disable := true }
    let p := { p with slots := fun j =>
      if j ≤ cur_stage then { p.slots j with disable := true } else p.slots j }
    (true, { s with pipeline := p })
  else (false, s)

/-- `Simulator::pl_decode_stage`: decode slot 1's backing word, run the
hazard check, snapshot the operand registers and perform the eager
control-flow redirections.  A failed decode is the `Err` outcome (the
caller inserts `Invalid`); the `unreachable` arms are a panic. -/
def Simulator.pl_decode_stage (s : Simulator) : Option (Except SimErr Simulator) :=
  if (s.pipeline.slots 1).valid = false then some (.ok s)
  else
    match decode_instr (s.pipeline.slots 1).instr_backing with
    | .error e => some (.error e)
    | .ok instr =>
      let s := s.setSlot 1 { s.pipeline.slots 1 with instr := instr }
      match s.caused_data_hazards 1 instr.uses_regs with
      | (true, s) =>
          some (.ok { s with pipeline :=
            { s.pipeline with hazard_thrower := some 1 } })
      | (false, s) =>
        let s :=
          match s.pipeline.hazard_thrower with
          | some c =>
              if c = 1 then
                let reenable : Nat → Slot := fun j =>
                  if j < 5 then { s.pipeline.slots j with disable := false }
                  else s.pipeline.slots j
                { s with pipeline :=
                  { s.pipeline with disable := false, slots := reenable } }
              else s
          | Option.none => s
        match instr with
        | .Add rs3 rs1 rs2 | .Sub rs3 rs1 rs2 | .Xor rs3 rs1 rs2
        | .Or rs3 rs1 rs2 | .And rs3 rs1 rs2 | .Div rs3 rs1 rs2
        | .Mul rs3 rs1 rs2 | .Shr rs3 rs1 rs2 | .Shl rs3 rs1 rs2 =>
            some (.ok (s.setSlot 1 { s.pipeline.slots 1 with
              rs1 := s.read_reg rs1, rs2 := s.read_reg rs2,
              rs3 := s.read_reg rs3 }))
        | .Ldb rs3 rs1 imm | .Ldh rs3 rs1 imm | .Ld rs3 rs1 imm
        | .Stb rs3 rs1 imm | .Sth rs3 rs1 imm | .St rs3 rs1 imm
        | .Addi rs3 rs1 imm | .Subi rs3 rs1 imm | .Xori rs3 rs1 imm
        | .Ori rs3 rs1 imm | .Andi rs3 rs1 imm =>
            some (.ok (s.setSlot 1 { s.pipeline.slots 1 with
              rs1 := s.read_reg rs1, imm := imm, rs3 := s.read_reg rs3,
              offset := imm }))
        | .Lui rs3 imm =>
            some (.ok (s.setSlot 1 { s.pipeline.slots 1 with
              imm := imm, rs3 := s.read_reg rs3 }))
        | .Beq rs3 rs1 imm | .Bne rs3 rs1 imm | .Blt rs3 rs1 imm
        | .Bgt rs3 rs1 imm =>
            let s := s.setSlot 1 { s.pipeline.slots 1 with
              rs1 := s.read_reg rs1, imm := imm, rs3 := s.read_reg rs3 }
            let s := s.setSlot 0 Slot.default
            some (.ok { s with pipeline := { s.pipeline with disable := true } })
        | .Jmpr rs3 offset =>
            let s := s.setSlot 1 { s.pipeline.slots 1 with
              offset := offset, rs3 := s.read_reg rs3 }
            let s := s.setSlot 0 Slot.default
            let newpc :=
              if s.pipelining_enabled then
                toU32 ((s.pipeline.pc : Int) - 8 + offset)
              else
                toU32 ((s.pipeline.pc : Int) - 4 + offset)
            some (.ok { s with pipeline := { s.pipeline with pc := newpc } })
        | .Call _ offset =>
            let s := s.setSlot 1 { s.pipeline.slots 1 with addr := toU32 offset }
            let s := s.setSlot 0 Slot.default
            some (.ok { s with pipeline :=
              { s.pipeline with pc := (s.pipeline.slots 1).addr } })
        | .Ret =>
            let s := s.setSlot 1 { s.pipeline.slots 1 with
              addr := s.read_reg 14 }
            let s := s.setSlot 0 Slot.default
            some (.ok { s with pipeline :=
              { s.pipeline with pc := (s.pipeline.slots 1).addr } })
        | .Int0 =>
            let s := s.setSlot 0 Slot.default
            some (.ok { s with pipeline := { s.pipeline with disable := true } })
        | .Nop => some (.ok s)
        | .Invalid => Option.none
        | .None => Option.none

/-- Bump one statistics counter kind (helper for the execute stage). -/
def Simulator.bumpLoad (s : Simulator) : Simulator :=
  { s with stats := { s.stats with load_instrs := s.stats.load_instrs + 1 } }

/-- Bump the store-instruction counter. -/
def Simulator.bumpStore (s : Simulator) : Simulator :=
  { s with stats := { s.stats with store_instrs := s.stats.store_instrs + 1 } }

/-- Bump the control-instruction counter. -/
def Simulator.bumpControl (s : Simulator) : Simulator :=
  { s with stats := { s.stats with control_instrs := s.stats.control_instrs + 1 } }

/-- Bump the arithmetic-instruction counter. -/
def Simulator.bumpArith (s : Simulator) : Simulator :=
  { s with stats := { s.stats with
      arithmetic_instrs := s.stats.arithmetic_instrs + 1 } }

/-- `Simulator::pl_execute_stage`: ALU work and effective-address /
branch-target computation on slot 2.  `Div` by zero is the `DivByZero`
error (after `total_instrs` was already counted); `Instr::None` on a
valid slot is the `unreachable` panic; `Invalid` is tolerated. -/
def Simulator.pl_execute_stage (s : Simulator) : StepRes Unit :=
  if (s.pipeline.slots 2).valid = false then .ok () s
  else
    let s := { s with stats :=
      { s.stats with total_instrs := s.stats.total_instrs + 1 } }
    let sl := s.pipeline.slots 2
    match sl.instr with
    | .Ldb _ _ _ | .Ldh _ _ _ | .Ld _ _ _ =>
        .ok () ((s.bumpLoad).setSlot 2
          { sl with addr := toU32 ((sl.rs1 : Int) + sl.offset) })
    | .Stb _ _ _ | .Sth _ _ _ | .St _ _ _ =>
        .ok () ((s.bumpStore).setSlot 2
          { sl with addr := toU32 ((sl.rs1 : Int) + sl.offset) })
    | .Jmpr _ _ =>
        .ok () ((s.bumpControl).setSlot 2
          { sl with addr := toU32 ((s.pipeline.pc : Int) + sl.offset) })
    | .Bne _ _ _ | .Beq _ _ _ | .Blt _ _ _ | .Bgt _ _ _ =>
        let s := s.bumpControl
        let is_true : Bool :=
          match sl.instr with
          | .Bne _ _ _ => sl.rs3 != sl.rs1
          | .Beq _ _ _ => sl.rs3 == sl.rs1
          | .Blt _ _ _ => decide (sl.rs3 < sl.rs1)
          | _ => decide (sl.rs3 > sl.rs1)
        let s := s.setSlot 0 Slot.default
        let s := s.setSlot 1 Slot.default
        let newaddr :=
          if is_true then toU32 ((sl.pc : Int) + sl.imm) else u32 (sl.pc + 4)
        let s := s.setSlot 2 { s.pipeline.slots 2 with addr := newaddr }
        .ok () { s with pipeline :=
          { s.pipeline with pc := newaddr, disable := false } }
    | .Lui _ _ =>
        .ok () ((s.bumpArith).setSlot 2 { sl with rs3 := toU32 (sl.imm * 4096) })
    | .Add _ _ _ =>
        .ok () ((s.bumpArith).setSlot 2 { sl with rs3 := u32 (sl.rs1 + sl.rs2) })
    | .Sub _ _ _ =>
        .ok () ((s.bumpArith).setSlot 2 { sl with rs3 := u32sub sl.rs1 sl.rs2 })
    | .Xor _ _ _ =>
        .ok () ((s.bumpArith).setSlot 2 { sl with rs3 := sl.rs1 ^^^ sl.rs2 })
    | .Or _ _ _ =>
        .ok () ((s.bumpArith).setSlot 2 { sl with rs3 := sl.rs1 ||| sl.rs2 })
    | .And _ _ _ =>
        .ok () ((s.bumpArith).setSlot 2 { sl with rs3 := sl.rs1 &&& sl.rs2 })
    | .Shr _ _ _ =>
        .ok () ((s.bumpArith).setSlot 2
          { sl with rs3 := sl.rs1 >>> (sl.rs2 % 32) })
    | .Shl _ _ _ =>
        .ok () ((s.bumpArith).setSlot 2
          { sl with rs3 := u32 (sl.rs1 <<< (sl.rs2 % 32)) })
    | .Mul _ _ _ =>
        .ok () ((s.bumpArith).setSlot 2 { sl with rs3 := u32 (sl.rs1 * sl.rs2) })
    | .Div _ _ _ =>
        if sl.rs2 = 0 then .fault .DivByZero s
        else .ok () ((s.bumpArith).setSlot 2 { sl with rs3 := sl.rs1 / sl.rs2 })
    | .Addi _ _ _ =>
        .ok () ((s.bumpArith).setSlot 2
          { sl with rs3 := toU32 ((sl.rs1 : Int) + sl.imm) })
    | .Subi _ _ _ =>
        .ok () ((s.bumpArith).setSlot 2
          { sl with rs3 := toU32 ((sl.rs1 : Int) - sl.imm) })
    | .Xori _ _ _ =>
        .ok () ((s.bumpArith).setSlot 2 { sl with rs3 := sl.rs1 ^^^ toU32 sl.imm })
    | .Ori _ _ _ =>
        .ok () ((s.bumpArith).setSlot 2 { sl with rs3 := sl.rs1 ||| toU32 sl.imm })
    | .Andi _ _ _ =>
        .ok () ((s.bumpArith).setSlot 2 { sl with rs3 := sl.rs1 &&& toU32 sl.imm })
    | .Invalid => .ok () s
    | .Call _ _ => .ok () s.bumpControl
    | .Ret => .ok () s.bumpControl
    | .Int0 => .ok () s.bumpControl
    | .Nop => .ok () s
    | .None => .panicked

/-- First half of `Simulator::pl_mem_stage`: the architectural-PC update
for the instruction in slot 3.  The `unwrap`s on the `Ret` read and the
`Call` push are panics; the 1- and 2-byte load paths panic in
`as_u32_le`, whose length assertion requires exactly 4 bytes. -/
def Simulator.pms_a (s : Simulator) : StepRes Unit :=
    let instr := (s.pipeline.slots 3).instr
    match instr with
      | .Ret =>
          match s.mem_read (s.read_reg 15) 4 with
          | .ok reader s =>
              let new_link := as_u32_le reader
              let s := s.setSlot 3 { s.pipeline.slots 3 with rs3 := new_link }
              .ok () { s with pc := (s.pipeline.slots 3).addr }
          | _ => .panicked
      | .Bne _ _ _ | .Beq _ _ _ | .Bgt _ _ _ | .Blt _ _ _ =>
          .ok () { s with pc := (s.pipeline.slots 3).addr }
      | .Jmpr _ _ =>
          .ok () { s with
            pc := toU32 ((s.pc : Int) + (s.pipeline.slots 3).offset) }
      | .Call _ _ =>
          let s := s.write_reg 15 (u32sub (s.read_reg 15) 4)
          match s.mem_write (s.read_reg 15) (toLEBytes 4 (s.read_reg 14)) with
          | .ok _ s =>
              let s := s.write_reg 14 (u32 (s.pc + 4))
              .ok () { s with pc := (s.pipeline.slots 3).addr }
          | _ => .panicked
      | _ => .ok () { s with pc := u32 ((s.pipeline.slots 3).pc + 4) }

/-- Second half of `Simulator::pl_mem_stage`: the memory access of the
instruction in slot 3, run on the state left by the control-flow half.
`instr` is slot 3's instruction as read before the control-flow half. -/
def Simulator.pms_b (instr : Instr) (s : Simulator) : StepRes Unit :=
        match instr with
        | .Ldb _ _ _ =>
            match s.mem_read (s.pipeline.slots 3).addr 1 with
            | .ok _ _ => .panicked
            | .fault e s => .fault e s
            | .panicked => .panicked
        | .Ldh _ _ _ =>
            match s.mem_read (s.pipeline.slots 3).addr 2 with
            | .ok _ _ => .panicked
            | .fault e s => .fault e s
            | .panicked => .panicked
        | .Ld _ _ _ =>
            match s.mem_read (s.pipeline.slots 3).addr 4 with
            | .ok reader s =>
                .ok () (s.setSlot 3
                  { s.pipeline.slots 3 with rs3 := as_u32_le reader })
            | .fault e s => .fault e s
            | .panicked => .panicked
        | .Stb _ _ _ =>
            match s.mem_write (s.pipeline.slots 3).addr
                [(s.pipeline.slots 3).rs3 % 256] with
            | .ok _ s => .ok () s
            | .fault e s => .fault e s
            | .panicked => .panicked
        | .Sth _ _ _ =>
            match s.mem_write (s.pipeline.slots 3).addr
                (toLEBytes 2 ((s.pipeline.slots 3).rs3 % 65536)) with
            | .ok _ s => .ok () s
            | .fault e s => .fault e s
            | .panicked => .panicked
        | .St _ _ _ =>
            match s.mem_write (s.pipeline.slots 3).addr
                (toLEBytes 4 (s.pipeline.slots 3).rs3) with
            | .ok _ s => .ok () s
            | .fault e s => .fault e s
            | .panicked => .panicked
        | .Int0 =>
            match s.mem_read 0 4 with
            | .ok reader s =>
                let a := as_u32_le reader
                let s := s.setSlot 3 { s.pipeline.slots 3 with addr := a }
                let s := s.setSlot 0 Slot.default
                let s := s.setSlot 1 Slot.default
                let s := s.setSlot 2 Slot.default
                let s := { s with pipeline :=
                  { s.pipeline with pc := a, disable := false } }
                .ok () { s with pc := (s.pipeline.slots 3).addr }
            | .fault e s => .fault e s
            | .panicked => .panicked
        | _ => .ok () s

/-- `Simulator::pl_mem_stage`: the architectural-PC update followed by the
memory operation of slot 3, as the composition of the two halves above. -/
def Simulator.pl_mem_stage (s : Simulator) : StepRes Unit :=
  if (s.pipeline.slots 3).valid = false then .ok () s
  else
    match s.pms_a with
    | .ok _ s2 => Simulator.pms_b (s.pipeline.slots 3).instr s2
    | .fault e s2 => .fault e s2
    | .panicked => .panicked

/-- `Simulator::pl_writeback_stage`: write slot 4's `rs3` into the
register file where applicable; an `Invalid` instruction reaching
writeback is the fatal `panic!`. -/
def Simulator.pl_writeback_stage (s : Simulator) : Option Simulator :=
  if (s.pipeline.slots 4).valid = false then some s
  else if (s.pipeline.slots 4).instr = .Invalid then Option.none
  else
    match (s.pipeline.slots 4).instr with
    | .Invalid | .None | .Stb _ _ _ | .Sth _ _ _ | .St _ _ _
    | .Bne _ _ _ | .Beq _ _ _ | .Blt _ _ _ | .Bgt _ _ _
    | .Int0 | .Call _ _ | .Jmpr _ _ => some s
    | .Add rs3 _ _ | .Sub rs3 _ _ | .Xor rs3 _ _ | .Or rs3 _ _
    | .And rs3 _ _ | .Shr rs3 _ _ | .Shl rs3 _ _ | .Mul rs3 _ _
    | .Div rs3 _ _ | .Addi rs3 _ _ | .Subi rs3 _ _ | .Xori rs3 _ _
    | .Ori rs3 _ _ | .Andi rs3 _ _ | .Lui rs3 _ | .Ldb rs3 _ _
    | .Ldh rs3 _ _ | .Ld rs3 _ _ =>
        some (s.write_reg rs3 (s.pipeline.slots 4).rs3)
    | .Ret =>
        let s := s.write_reg 14 (s.pipeline.slots 4).rs3
        some (s.write_reg 15 (u32 (s.read_reg 15 + 4)))
    | .Nop => some s

/-- The descending copy loop of `Simulator::advance_pipeline` (slot
`c-1` is copied into slot `c` unless it is per-slot disabled). -/
def Simulator.advanceFrom (s : Simulator) : Nat → Simulator
  | 0 => s
  | Nat.succ c =>
      if (s.pipeline.slots c).disable then s.advanceFrom c
      else
        let s := s.setSlot (c + 1) (s.pipeline.slots c)
        let s := s.setSlot c Slot.default
        s.advanceFrom c

/-- `Simulator::advance_pipeline`. -/
def Simulator.advance_pipeline (s : Simulator) : Simulator := s.advanceFrom 4

/-- The descending reset loop at the end of `step_no_pipeline`: the slot
at `cur_stage` is copied one slot forward (unless it is slot 4) and every
slot is reset. -/
def Simulator.npShift (s : Simulator) : Nat → Simulator
  | 0 => s
  | Nat.succ c =>
      let s :=
        if c = s.pipeline.cur_stage ∧ c ≠ 4 then
          s.setSlot (c + 1) (s.pipeline.slots c)
        else s
      let s := s.setSlot c Slot.default
      s.npShift c

/-- The advance step of `step_no_pipeline`: shift/reset the slots and move
to the next stage in round-robin. -/
def Simulator.npAdvance (s : Simulator) : Simulator :=
  let s := s.npShift 5
  { s with pipeline :=
    { s.pipeline with cur_stage := (s.pipeline.cur_stage + 1) % 5 } }

/-- The fetch phase of `Simulator::step_pipeline`: skipped while the
pipeline is disabled, and any fetch fault kills the cycle (the Rust
`return None`). -/
def Simulator.spFetch (s : Simulator) : Option Simulator :=
  if ¬ s.pipeline.disable then
    match s.pl_fetch_stage with
    | .ok _ s' => some s'
    | _ => Option.none
  else some s

/-- The decode phase of `Simulator::step_pipeline`: a decode error turns
slot 1's instruction into `Invalid` and the cycle continues. -/
def Simulator.spDec (s : Simulator) : Option Simulator :=
  match s.pl_decode_stage with
  | Option.none => Option.none
  | some (.error _) =>
      some (s.setSlot 1 { s.pipeline.slots 1 with instr := .Invalid })
  | some (.ok s') => some s'

/-- The execute phase of `Simulator::step_pipeline`: a `DivByZero` fault
takes the simulator offline but the cycle continues. -/
def Simulator.spExec (s : Simulator) : Option Simulator :=
  match s.pl_execute_stage with
  | .ok _ s' => some s'
  | .fault .DivByZero s' => some { s' with online := false }
  | _ => Option.none

/-- The memory phase of `Simulator::step_pipeline`: a `Shutdown` fault
(MMIO 0x41) keeps the mutated state and the cycle continues. -/
def Simulator.spMem (s : Simulator) : Option Simulator :=
  match s.pl_mem_stage with
  | .ok _ s' => some s'
  | .fault .Shutdown s' => some s'
  | _ => Option.none

/-- The writeback phase of `Simulator::step_pipeline`, ending with the
pipeline advance. -/
def Simulator.spWb (s : Simulator) : Option Simulator :=
  match s.pl_writeback_stage with
  | Option.none => Option.none
  | some s => some s.advance_pipeline

/-- `Simulator::step_pipeline`: one clock cycle with pipelining on, the
composition of the stall check and the five phases above. -/
def Simulator.step_pipeline (s : Simulator) : Option Simulator :=
  match s.process_mem_stalls true true with
  | .panicked => Option.none
  | .fault _ _ => Option.none
  | .ok true s => some s
  | .ok false s =>
      s.spFetch.bind fun s =>
      s.spDec.bind fun s =>
      s.spExec.bind fun s =>
      s.spMem.bind fun s =>
      s.spWb

/-- The fetch cycle of `Simulator::step_no_pipeline` past the stall
check. -/
def Simulator.npFetch (s : Simulator) : Option Simulator :=
  match s.pl_fetch_stage with
  | .ok _ s => some s.npAdvance
  | _ => Option.none

/-- The decode cycle of `Simulator::step_no_pipeline`. -/
def Simulator.npDec (s : Simulator) : Option Simulator :=
  match s.pl_decode_stage with
  | some (.ok s) => some s.npAdvance
  | _ => Option.none

/-- The execute cycle of `Simulator::step_no_pipeline`. -/
def Simulator.npExec (s : Simulator) : Option Simulator :=
  match s.pl_execute_stage with
  | .ok _ s => some s.npAdvance
  | .fault .DivByZero s => some ({ s with online := false }).npAdvance
  | _ => Option.none

/-- The memory cycle of `Simulator::step_no_pipeline` past the stall
check. -/
def Simulator.npMem (s : Simulator) : Option Simulator :=
  match s.pl_mem_stage with
  | .ok _ s => some s.npAdvance
  | .fault .Shutdown s => some s.npAdvance
  | _ => Option.none

/-- The writeback cycle of `Simulator::step_no_pipeline`. -/
def Simulator.npWb (s : Simulator) : Option Simulator :=
  match s.pl_writeback_stage with
  | some s => some s.npAdvance
  | Option.none => Option.none

/-- `Simulator::step_no_pipeline`: one clock cycle with pipelining off;
only the stage `cur_stage` fires, followed by the shift/reset loop, except
on memory-stall cycles which return early. -/
def Simulator.step_no_pipeline (s : Simulator) : Option Simulator :=
  match s.pipeline.cur_stage with
  | 0 =>
      (match s.process_mem_stalls true false with
      | .ok true s => some s
      | .ok false s => s.npFetch
      | _ => Option.none)
  | 1 => s.npDec
  | 2 => s.npExec
  | 3 =>
      (match s.process_mem_stalls false true with
      | .ok true s => some s
      | .ok false s => s.npMem
      | _ => Option.none)
  | 4 => s.npWb
  | _ => Option.none

/-- `Simulator::step`: a single clock cycle; a no-op when the simulator is
offline, otherwise one pipelined or unpipelined cycle followed by the
clock increment. -/
def Simulator.step (s : Simulator) : Option Simulator :=
  if s.online = false then some s
  else
    match (if s.pipelining_enabled then s.step_pipeline else s.step_no_pipeline) with
    | Option.none => Option.none
    | some s' => some { s' with clock := u32 (s'.clock + 1) }

/-- Iterate `step` a given number of cycles (`none` as soon as any cycle
panics). -/
def Simulator.stepN : Nat → Simulator → Option Simulator
  | 0, s => some s
  | Nat.succ n, s =>
      match s.step with
      | Option.none => Option.none
      | some s' => Simulator.stepN n s'

/-! ### Frame facts shared by the R0 and clock claims

`presv s s'` says a state transition neither changed the value of the
zero register R0 nor the clock: every intra-cycle stage function
satisfies it (register writes go through `write_reg`, which discards R0
writes, and only `step` itself touches the clock). -/

/-- The transition from `s` to `s'` preserved R0 and the clock. -/
def presv (s s' : Simulator) : Prop :=
  s'.gen_regs 0 = s.gen_regs 0 ∧ s'.clock = s.clock

/-- `presv` is reflexive. -/
theorem presv_rfl (s : Simulator) : presv s s := ⟨rfl, rfl⟩

/-- `presv` is transitive. -/
theorem presv_trans {s s' s'' : Simulator} (h : presv s s') (h' : presv s' s'') :
    presv s s'' := ⟨h'.1.trans h.1, h'.2.trans h.2⟩

/-- All states reachable in a `StepRes` preserve R0 and the clock. -/
def StepRes.presvFrom (s : Simulator) : StepRes α → Prop
  | .ok _ s' => presv s s'
  | .fault _ s' => presv s s'
  | .panicked => True

/-- Chaining `presvFrom` behind an earlier preserved transition. -/
theorem StepRes.presvFrom_trans {s s' : Simulator} (h : presv s s')
    {r : StepRes α} (hr : r.presvFrom s') : r.presvFrom s := by
  cases r with
  | ok a s'' => exact presv_trans h hr
  | fault e s'' => exact presv_trans h hr
  | panicked => trivial

/-- `presvFrom` for an optional successor state. -/
def optPresvFrom (s : Simulator) : Option Simulator → Prop
  | some s' => presv s s'
  | Option.none => True

/-- `write_reg` preserves R0 (writes to R0 are discarded, writes to other
registers do not alias R0) and the clock. -/
theorem write_reg_presv (s : Simulator) (r v : Nat) :
    presv s (s.write_reg r v) := by
  unfold Simulator.write_reg
  by_cases h : r ≠ 0
  · have h0 : ¬ ((0 : Nat) = r) := fun hh => h hh.symm
    simp [h, h0, presv]
  · simp [h, presv_rfl]

/-- `setSlot` preserves R0 and the clock. -/
theorem setSlot_presv (s : Simulator) (i : Nat) (sl : Slot) :
    presv s (s.setSlot i sl) := ⟨rfl, rfl⟩

/-- `Simulator.mem_read` preserves R0 and the clock. -/
theorem mem_read_presv (s : Simulator) (a l : Nat) :
    (s.mem_read a l).presvFrom s := by
  unfold Simulator.mem_read
  rcases s.mmu.mem_read a l with ⟨hit, bytes, mmu'⟩ | e | _
  · cases hit <;> exact ⟨rfl, rfl⟩
  · exact presv_rfl s
  · trivial

/-- `Simulator.mem_write` preserves R0 and the clock: its only register
write is the MMIO side effect into R1, which goes through `write_reg`. -/
theorem mem_write_presv (s : Simulator) (a : Nat) (w : List Nat) :
    (s.mem_write a w).presvFrom s := by
  unfold Simulator.mem_write
  rcases mmuWriteChunks s.mmu a w with m' | e | _
  · dsimp only
    by_cases h0 : a = 0x2000 ∧ w = []
    · simp [h0, StepRes.presvFrom]
    rw [if_neg h0]
    by_cases h41 : a = 0x2000 ∧ w.getD 0 0 = 0x41
    · simp only [if_pos h41]
      exact ⟨rfl, rfl⟩
    rw [if_neg h41]
    by_cases h42 : a = 0x2000 ∧ w.getD 0 0 = 0x42
    · simp only [if_pos h42]
      have h1 := write_reg_presv { s with mmu := m' } 1
        { s with mmu := m' }.clock
      by_cases hv : 0x1000 ≤ a ∧ a ≤ 0x10f0
      · rw [if_pos hv]
        by_cases hv2 : a + w.length < 0x1000 + 240
        · rw [if_pos hv2]
          exact h1
        · rw [if_neg hv2]
          trivial
      · rw [if_neg hv]
        exact h1
    rw [if_neg h42]
    by_cases h43 : a = 0x2000 ∧ w.getD 0 0 = 0x43
    · simp only [if_pos h43]
      have h1 := write_reg_presv { s with mmu := m' } 1
        (u32 ({ s with mmu := m' }.rng_stream { s with mmu := m' }.rng_idx))
      have h2 : presv s { ({ s with mmu := m' }.write_reg 1
          (u32 ({ s with mmu := m' }.rng_stream { s with mmu := m' }.rng_idx)))
          with rng_idx := { s with mmu := m' }.rng_idx + 1 } :=
        ⟨h1.1, h1.2⟩
      by_cases hv : 0x1000 ≤ a ∧ a ≤ 0x10f0
      · rw [if_pos hv]
        by_cases hv2 : a + w.length < 0x1000 + 240
        · rw [if_pos hv2]
          exact h2
        · rw [if_neg hv2]
          trivial
      · rw [if_neg hv]
        exact h2
    rw [if_neg h43]
    by_cases hv : 0x1000 ≤ a ∧ a ≤ 0x10f0
    · rw [if_pos hv]
      by_cases hv2 : a + w.length < 0x1000 + 240
      · rw [if_pos hv2]
        exact ⟨rfl, rfl⟩
      · rw [if_neg hv2]
        trivial
    · rw [if_neg hv]
      exact ⟨rfl, rfl⟩
  · exact presv_rfl s
  · trivial

/-- Case analysis principle for `presvFrom`. -/
theorem presvFrom_of_cases {α : Type} {s : Simulator} {r : StepRes α}
    (hok : ∀ a s', r = .ok a s' → presv s s')
    (hfault : ∀ e s', r = .fault e s' → presv s s') : r.presvFrom s := by
  cases r with
  | ok a s' => exact hok a s' rfl
  | fault e s' => exact hfault e s' rfl
  | panicked => trivial

/-- The stage-3 stall bookkeeping preserves R0 and the clock. -/
theorem pms_stage3_presv (s : Simulator) (c3 : Bool) :
    (s.pms_stage3 c3).presvFrom s := by
  refine presvFrom_of_cases ?_ ?_ <;> intro x s' heq <;>
    unfold Simulator.pms_stage3 at heq <;>
    iterate 8 (all_goals (first | split at heq | dsimp only at heq | skip))
  all_goals (cases heq <;> exact ⟨rfl, rfl⟩)

/-- `process_mem_stalls` preserves R0 and the clock. -/
theorem process_mem_stalls_presv (s : Simulator) (c0 c3 : Bool) :
    (s.process_mem_stalls c0 c3).presvFrom s := by
  refine presvFrom_of_cases ?_ ?_ <;> intro x s' heq <;>
    unfold Simulator.process_mem_stalls at heq <;>
    iterate 6 (all_goals (first | split at heq | dsimp only at heq | skip))
  all_goals first
    | (cases heq <;> exact ⟨rfl, rfl⟩)
    | (have h3 := pms_stage3_presv s c3
       rw [heq] at h3
       exact h3)

/-- The fetch stage preserves R0 and the clock. -/
theorem pl_fetch_stage_presv (s : Simulator) : s.pl_fetch_stage.presvFrom s := by
  unfold Simulator.pl_fetch_stage
  have hp := mem_read_presv s s.pipeline.pc 4
  rcases h : s.mem_read s.pipeline.pc 4 with ⟨r, s'⟩ | ⟨e, s'⟩ | _ <;>
    rw [h] at hp
  · exact presv_trans hp ⟨rfl, rfl⟩
  · exact hp
  · trivial

/-- The hazard check preserves R0 and the clock. -/
theorem caused_data_hazards_presv (s : Simulator) (c : Nat) (regs : List Nat) :
    presv s (s.caused_data_hazards c regs).2 := by
  unfold Simulator.caused_data_hazards
  dsimp only
  split <;> exact ⟨rfl, rfl⟩

/-- The second component of a hazard-check result, from any preserved
predecessor. -/
theorem hazard_snd_presv {s0 X : Simulator} {c : Nat} {regs : List Nat}
    {b : Bool} {s2 : Simulator} (hX : presv s0 X)
    (hp : X.caused_data_hazards c regs = (b, s2)) : presv s0 s2 := by
  have h1 := congrArg Prod.snd hp
  dsimp only at h1
  rw [← h1]
  exact presv_trans hX (caused_data_hazards_presv X c regs)

/-- `presvFrom` for the decode-stage result type. -/
def decPresvFrom (s : Simulator) : Option (Except SimErr Simulator) → Prop
  | some (.ok s') => presv s s'
  | _ => True

/-- Case analysis principle for `decPresvFrom`. -/
theorem decPresv_of_cases {s : Simulator} {r : Option (Except SimErr Simulator)}
    (hok : ∀ s', r = some (.ok s') → presv s s') : decPresvFrom s r := by
  rcases r with _ | e
  · trivial
  rcases e with e | s'
  · trivial
  · exact hok s' rfl

/-- The decode stage preserves R0 and the clock (it only reads registers
and mutates the pipeline). -/
theorem pl_decode_stage_presv (s : Simulator) :
    decPresvFrom s s.pl_decode_stage := by
  refine decPresv_of_cases ?_
  intro s' heq
  unfold Simulator.pl_decode_stage at heq
  iterate 8 (all_goals (first | split at heq | dsimp only at heq | skip))
  all_goals try (cases heq <;> exact ⟨rfl, rfl⟩)
  all_goals (
    rename Simulator.caused_data_hazards _ _ _ = _ => hpair
    cases heq <;>
      exact presv_trans (hazard_snd_presv (setSlot_presv s 1 _) hpair) ⟨rfl, rfl⟩)

/-- The execute stage preserves R0 and the clock. -/
theorem pl_execute_stage_presv (s : Simulator) :
    s.pl_execute_stage.presvFrom s := by
  refine presvFrom_of_cases ?_ ?_ <;> intro x s' heq <;>
    unfold Simulator.pl_execute_stage at heq <;>
    iterate 6 (all_goals (first | split at heq | dsimp only at heq | skip))
  all_goals (cases heq <;> exact ⟨rfl, rfl⟩)

/-- A successful `mem_read` from a preserved state yields a preserved
state. -/
theorem mem_read_ok_presv {s0 X : Simulator} {a l : Nat} {r : List Nat}
    {s2 : Simulator} (hX : presv s0 X) (h : X.mem_read a l = .ok r s2) :
    presv s0 s2 := by
  have hp := mem_read_presv X a l
  rw [h] at hp
  exact presv_trans hX hp

/-- A faulting `mem_read` from a preserved state yields a preserved
state. -/
theorem mem_read_fault_presv {s0 X : Simulator} {a l : Nat} {e : SimErr}
    {s2 : Simulator} (hX : presv s0 X) (h : X.mem_read a l = .fault e s2) :
    presv s0 s2 := by
  have hp := mem_read_presv X a l
  rw [h] at hp
  exact presv_trans hX hp

/-- A successful `mem_write` from a preserved state yields a preserved
state. -/
theorem mem_write_ok_presv {s0 X : Simulator} {a : Nat} {w : List Nat}
    {r : Nat} {s2 : Simulator} (hX : presv s0 X)
    (h : X.mem_write a w = .ok r s2) : presv s0 s2 := by
  have hp := mem_write_presv X a w
  rw [h] at hp
  exact presv_trans hX hp

/-- A faulting `mem_write` from a preserved state yields a preserved
state. -/
theorem mem_write_fault_presv {s0 X : Simulator} {a : Nat} {w : List Nat}
    {e : SimErr} {s2 : Simulator} (hX : presv s0 X)
    (h : X.mem_write a w = .fault e s2) : presv s0 s2 := by
  have hp := mem_write_presv X a w
  rw [h] at hp
  exact presv_trans hX hp

/-- The control-flow half of the memory stage preserves R0 and the clock:
its register writes (the `Call` stack handling and the MMIO side effects
inside `mem_write`) all go through `write_reg`. -/
theorem pms_a_presv (s : Simulator) : s.pms_a.presvFrom s := by
  refine presvFrom_of_cases ?_ ?_ <;> intro x s' heq <;>
    unfold Simulator.pms_a at heq <;>
    iterate 8 (all_goals (first | split at heq | dsimp only at heq | skip))
  all_goals try (cases heq <;> exact ⟨rfl, rfl⟩)
  all_goals try (
    rename Simulator.mem_read _ _ _ = _ => hsub
    cases heq <;>
      first
        | exact presv_trans (mem_read_ok_presv ⟨rfl, rfl⟩ hsub) ⟨rfl, rfl⟩
        | exact presv_trans (mem_read_fault_presv ⟨rfl, rfl⟩ hsub) ⟨rfl, rfl⟩)
  all_goals (
    rename Simulator.mem_write _ _ _ = _ => hsub
    cases heq <;>
      first
        | exact presv_trans (mem_write_ok_presv ⟨rfl, rfl⟩ hsub) ⟨rfl, rfl⟩
        | exact presv_trans (mem_write_fault_presv ⟨rfl, rfl⟩ hsub) ⟨rfl, rfl⟩
        | exact presv_trans (mem_write_ok_presv (write_reg_presv s 15 _) hsub)
            ⟨rfl, rfl⟩
        | exact mem_write_fault_presv (write_reg_presv s 15 _) hsub)

/-- The memory-access half of the memory stage preserves R0 and the
clock. -/
theorem pms_b_presv (i : Instr) (s : Simulator) :
    (Simulator.pms_b i s).presvFrom s := by
  refine presvFrom_of_cases ?_ ?_ <;> intro x s' heq <;>
    unfold Simulator.pms_b at heq <;>
    iterate 8 (all_goals (first | split at heq | dsimp only at heq | skip))
  all_goals try (cases heq <;> exact ⟨rfl, rfl⟩)
  all_goals try (
    rename Simulator.mem_read _ _ _ = _ => hsub
    cases heq <;>
      first
        | exact presv_trans (mem_read_ok_presv ⟨rfl, rfl⟩ hsub) ⟨rfl, rfl⟩
        | exact presv_trans (mem_read_fault_presv ⟨rfl, rfl⟩ hsub) ⟨rfl, rfl⟩)
  all_goals (
    rename Simulator.mem_write _ _ _ = _ => hsub
    cases heq <;>
      first
        | exact presv_trans (mem_write_ok_presv ⟨rfl, rfl⟩ hsub) ⟨rfl, rfl⟩
        | exact presv_trans (mem_write_fault_presv ⟨rfl, rfl⟩ hsub) ⟨rfl, rfl⟩)

/-- The memory stage preserves R0 and the clock, by composing the two
half-stage frame lemmas. -/
theorem pl_mem_stage_presv (s : Simulator) : s.pl_mem_stage.presvFrom s := by
  refine presvFrom_of_cases ?_ ?_ <;> intro x s' heq <;>
    unfold Simulator.pl_mem_stage at heq <;> split at heq
  all_goals try (cases heq <;> exact ⟨rfl, rfl⟩)
  all_goals (
    rcases hA : s.pms_a with ⟨u, s2⟩ | ⟨e, s2⟩ | _ <;> simp only [hA] at heq <;>
      try (cases heq))
  all_goals try exact ⟨rfl, rfl⟩
  all_goals (
    have h1 := pms_a_presv s
    rw [hA] at h1)
  all_goals try exact h1
  all_goals (
    have h2 := pms_b_presv (s.pipeline.slots 3).instr s2
    rw [heq] at h2
    exact presv_trans h1 h2)

/-- Case analysis principle for `optPresvFrom`. -/
theorem optPresv_of_cases {s : Simulator} {r : Option Simulator}
    (hok : ∀ s', r = some s' → presv s s') : optPresvFrom s r := by
  rcases r with _ | s'
  · trivial
  · exact hok s' rfl

/-- The writeback stage preserves R0 and the clock: all register writes go
through `write_reg`. -/
theorem pl_writeback_stage_presv (s : Simulator) :
    optPresvFrom s s.pl_writeback_stage := by
  refine optPresv_of_cases ?_
  intro s' heq
  unfold Simulator.pl_writeback_stage at heq
  iterate 6 (all_goals (first | split at heq | dsimp only at heq | skip))
  all_goals (cases heq <;>
    first
      | exact ⟨rfl, rfl⟩
      | exact write_reg_presv s _ _
      | exact presv_trans (write_reg_presv s 14 _) (write_reg_presv _ 15 _))

/-- The pipelined advance loop preserves R0 and the clock. -/
theorem advanceFrom_presv (n : Nat) (s : Simulator) :
    presv s (s.advanceFrom n) := by
  induction n generalizing s with
  | zero => exact presv_rfl s
  | succ c ih =>
      unfold Simulator.advanceFrom
      split
      · exact ih s
      · exact presv_trans (⟨rfl, rfl⟩ : presv s _) (ih _)

/-- The unpipelined shift loop preserves R0 and the clock. -/
theorem npShift_presv (n : Nat) (s : Simulator) : presv s (s.npShift n) := by
  induction n generalizing s with
  | zero => exact presv_rfl s
  | succ c ih =>
      unfold Simulator.npShift
      split <;> exact presv_trans (⟨rfl, rfl⟩ : presv s _) (ih _)

/-- The unpipelined advance step preserves R0 and the clock. -/
theorem npAdvance_presv (s : Simulator) : presv s s.npAdvance :=
  presv_trans (npShift_presv 5 s) ⟨rfl, rfl⟩

/-- Weakening `optPresvFrom` along an earlier preserved transition. -/
theorem optPresv_weaken {s t : Simulator} {o : Option Simulator}
    (h : presv s t) (ho : optPresvFrom t o) : optPresvFrom s o := by
  rcases o with _ | u
  · trivial
  · exact presv_trans h ho

/-- `optPresvFrom` composes through `Option.bind`. -/
theorem optPresv_bind {s : Simulator} {o : Option Simulator}
    {f : Simulator → Option Simulator} (ho : optPresvFrom s o)
    (hf : ∀ t, presv s t → optPresvFrom s (f t)) :
    optPresvFrom s (o.bind f) := by
  rcases o with _ | t
  · trivial
  · exact hf t ho

/-- The fetch phase of the pipelined cycle preserves R0 and the clock. -/
theorem spFetch_presv (t : Simulator) : optPresvFrom t t.spFetch := by
  unfold Simulator.spFetch
  split
  · have hp := pl_fetch_stage_presv t
    rcases hr : t.pl_fetch_stage with ⟨u, s'⟩ | ⟨e, s'⟩ | _ <;>
      rw [hr] at hp
    · exact hp
    · trivial
    · trivial
  · exact presv_rfl t

/-- The decode phase of the pipelined cycle preserves R0 and the clock. -/
theorem spDec_presv (t : Simulator) : optPresvFrom t t.spDec := by
  unfold Simulator.spDec
  have hp := pl_decode_stage_presv t
  rcases hr : t.pl_decode_stage with _ | x <;> rw [hr] at hp
  · trivial
  · rcases x with e | s'
    · exact setSlot_presv t 1 _
    · exact hp

/-- The execute phase of the pipelined cycle preserves R0 and the clock. -/
theorem spExec_presv (t : Simulator) : optPresvFrom t t.spExec := by
  unfold Simulator.spExec
  have hp := pl_execute_stage_presv t
  rcases hr : t.pl_execute_stage with ⟨u, s'⟩ | ⟨e, s'⟩ | _ <;>
    rw [hr] at hp
  · exact hp
  · cases e <;> first | trivial | exact presv_trans hp ⟨rfl, rfl⟩
  · trivial

/-- The memory phase of the pipelined cycle preserves R0 and the clock. -/
theorem spMem_presv (t : Simulator) : optPresvFrom t t.spMem := by
  unfold Simulator.spMem
  have hp := pl_mem_stage_presv t
  rcases hr : t.pl_mem_stage with ⟨u, s'⟩ | ⟨e, s'⟩ | _ <;>
    rw [hr] at hp
  · exact hp
  · cases e <;> first | trivial | exact hp
  · trivial

/-- The writeback phase of the pipelined cycle preserves R0 and the
clock. -/
theorem spWb_presv (t : Simulator) : optPresvFrom t t.spWb := by
  unfold Simulator.spWb
  have hp := pl_writeback_stage_presv t
  rcases hr : t.pl_writeback_stage with _ | w <;> rw [hr] at hp
  · trivial
  · exact presv_trans hp (advanceFrom_presv 4 w)

/-- A pipelined cycle preserves R0 and the clock. -/
theorem step_pipeline_presv (s : Simulator) :
    optPresvFrom s s.step_pipeline := by
  unfold Simulator.step_pipeline
  have h0 := process_mem_stalls_presv s true true
  rcases hpm : s.process_mem_stalls true true with ⟨b, s1⟩ | ⟨e, s1⟩ | _ <;>
    rw [hpm] at h0
  · cases b
    · exact optPresv_bind (optPresv_weaken h0 (spFetch_presv s1)) (fun t ht =>
        optPresv_bind (optPresv_weaken ht (spDec_presv t)) (fun u hu =>
          optPresv_bind (optPresv_weaken hu (spExec_presv u)) (fun v hv =>
            optPresv_bind (optPresv_weaken hv (spMem_presv v)) (fun w hw =>
              optPresv_weaken hw (spWb_presv w)))))
    · exact h0
  · trivial
  · trivial

/-- The unpipelined fetch cycle preserves R0 and the clock. -/
theorem npFetch_presv (t : Simulator) : optPresvFrom t t.npFetch := by
  unfold Simulator.npFetch
  have hp := pl_fetch_stage_presv t
  rcases hr : t.pl_fetch_stage with ⟨u, s2⟩ | ⟨e, s2⟩ | _ <;> rw [hr] at hp
  · exact presv_trans hp (npAdvance_presv s2)
  · trivial
  · trivial

/-- The unpipelined decode cycle preserves R0 and the clock. -/
theorem npDec_presv (t : Simulator) : optPresvFrom t t.npDec := by
  unfold Simulator.npDec
  have hp := pl_decode_stage_presv t
  rcases hr : t.pl_decode_stage with _ | x <;> rw [hr] at hp
  · trivial
  · rcases x with e | s3
    · trivial
    · exact presv_trans hp (npAdvance_presv s3)

/-- The unpipelined execute cycle preserves R0 and the clock. -/
theorem npExec_presv (t : Simulator) : optPresvFrom t t.npExec := by
  unfold Simulator.npExec
  have hp := pl_execute_stage_presv t
  rcases hr : t.pl_execute_stage with ⟨u, s2⟩ | ⟨e, s2⟩ | _ <;> rw [hr] at hp
  · exact presv_trans hp (npAdvance_presv s2)
  · cases e <;>
      first
        | trivial
        | exact presv_trans (presv_trans hp ⟨rfl, rfl⟩) (npAdvance_presv _)
  · trivial

/-- The unpipelined memory cycle preserves R0 and the clock. -/
theorem npMem_presv (t : Simulator) : optPresvFrom t t.npMem := by
  unfold Simulator.npMem
  have hp := pl_mem_stage_presv t
  rcases hr : t.pl_mem_stage with ⟨u, s2⟩ | ⟨e, s2⟩ | _ <;> rw [hr] at hp
  · exact presv_trans hp (npAdvance_presv s2)
  · cases e <;>
      first
        | trivial
        | exact presv_trans hp (npAdvance_presv s2)
  · trivial

/-- The unpipelined writeback cycle preserves R0 and the clock. -/
theorem npWb_presv (t : Simulator) : optPresvFrom t t.npWb := by
  unfold Simulator.npWb
  have hp := pl_writeback_stage_presv t
  rcases hr : t.pl_writeback_stage with _ | w <;> rw [hr] at hp
  · trivial
  · exact presv_trans hp (npAdvance_presv w)

/-- An unpipelined cycle preserves R0 and the clock. -/
theorem step_no_pipeline_presv (s : Simulator) :
    optPresvFrom s s.step_no_pipeline := by
  unfold Simulator.step_no_pipeline
  split
  · have h0 := process_mem_stalls_presv s true false
    rcases hpm : s.process_mem_stalls true false with ⟨b, s1⟩ | ⟨e, s1⟩ | _ <;>
      rw [hpm] at h0
    · cases b
      · exact optPresv_weaken h0 (npFetch_presv s1)
      · exact h0
    · trivial
    · trivial
  · exact npDec_presv s
  · exact npExec_presv s
  · have h0 := process_mem_stalls_presv s false true
    rcases hpm : s.process_mem_stalls false true with ⟨b, s1⟩ | ⟨e, s1⟩ | _ <;>
      rw [hpm] at h0
    · cases b
      · exact optPresv_weaken h0 (npMem_presv s1)
      · exact h0
    · trivial
    · trivial
  · exact npWb_presv s
  · trivial

/-- What one `step` does to R0, the clock and an offline machine: offline
states are returned unchanged; otherwise R0 is preserved and the clock
advances by exactly one (mod 2^32). -/
theorem step_presv_clock (s sf : Simulator) (h : s.step = some sf) :
    (s.online = false → sf = s) ∧
    (s.online = true →
      sf.gen_regs 0 = s.gen_regs 0 ∧ sf.clock = u32 (s.clock + 1)) := by
  unfold Simulator.step at h
  by_cases ho : s.online = false
  · rw [if_pos ho] at h
    cases h
    exact ⟨fun _ => rfl, fun ht => absurd (ho.symm.trans ht) (by decide)⟩
  · rw [if_neg ho] at h
    rcases hm : (if s.pipelining_enabled then s.step_pipeline
        else s.step_no_pipeline) with _ | s1 <;> rw [hm] at h
    · cases h
    · have hp : presv s s1 := by
        by_cases hpe : s.pipelining_enabled
        · rw [if_pos hpe] at hm
          have hq := step_pipeline_presv s
          rw [hm] at hq
          exact hq
        · rw [if_neg hpe] at hm
          have hq := step_no_pipeline_presv s
          rw [hm] at hq
          exact hq
      cases h
      exact ⟨fun hf => absurd hf ho,
        fun _ => ⟨hp.1, by rw [hp.2]⟩⟩

/-! ### Claim C4: the zero register -/

/-- R0 is unchanged by any number of `step`s. -/
theorem stepN_r0 (n : Nat) : ∀ s s' : Simulator,
    Simulator.stepN n s = some s' → s'.gen_regs 0 = s.gen_regs 0 := by
  induction n with
  | zero =>
      intro s s' h
      cases h
      rfl
  | succ m ih =>
      intro s s' h
      unfold Simulator.stepN at h
      rcases hs : s.step with _ | s1 <;> rw [hs] at h
      · cases h
      · have hst := step_presv_clock s s1 hs
        by_cases ho : s.online = false
        · rw [ih s1 s' h, hst.1 ho]
        · have hon : s.online = true := by
            cases ho2 : s.online
            · exact absurd ho2 ho
            · rfl
          rw [ih s1 s' h, (hst.2 hon).1]

/-- C4: reading R0 after any number of steps from the initial simulator
state yields 0; `write_reg` to R0 leaves the state unchanged, and no stage
(Call/Ret writebacks and the MMIO writes into R1 included) makes R0
nonzero. -/
theorem r0_always_zero :
    (∀ (s : Simulator) (v : Nat), s.write_reg 0 v = s) ∧
    ∀ (rng : Nat → Nat) (n : Nat) (s : Simulator),
      Simulator.stepN n (Simulator.new rng) = some s → s.read_reg 0 = 0 := by
  constructor
  · intro s v
    simp [Simulator.write_reg]
  · intro rng n s h
    exact stepN_r0 n (Simulator.new rng) s h

/-- Witness for C4: writing 5 to R0 in the initial state is a no-op, and
after a (zero-length) run from the initial state R0 reads 0. -/
theorem r0_always_zero_witness :
    (Simulator.new (fun _ => 0)).write_reg 0 5 = Simulator.new (fun _ => 0) ∧
    ∃ s, Simulator.stepN 0 (Simulator.new (fun _ => 0)) = some s ∧
      s.read_reg 0 = 0 :=
  ⟨r0_always_zero.1 (Simulator.new (fun _ => 0)) 5,
   ⟨Simulator.new (fun _ => 0), rfl,
    r0_always_zero.2 (fun _ => 0) 0 (Simulator.new (fun _ => 0)) rfl⟩⟩

/-! ### Claim C8: the clock increment -/

/-- An offline simulator: `step` returns it unchanged. -/
def c8off : Simulator := { Simulator.new (fun _ => 0) with online := false }

/-- Counterexample to C8: a `step` of an offline simulator returns the
state unchanged, so its clock (0) is not incremented to 1. -/
theorem c8_offline_clock_counterexample :
    c8off.step = some c8off ∧ c8off.clock = 0 ∧ u32 (c8off.clock + 1) ≠ 0 :=
  ⟨rfl, rfl, by decide⟩

/-- C8 (amended): while the simulator is online every successful `step`
increments the clock by exactly one (mod 2^32), including memory-stall
countdown cycles; an offline simulator is returned unchanged, clock
included. -/
theorem step_clock_spec (s s' : Simulator) (h : s.step = some s') :
    (s.online = true → s'.clock = u32 (s.clock + 1)) ∧
    (s.online = false → s' = s) := by
  have hst := step_presv_clock s s' h
  exact ⟨fun ho => (hst.2 ho).2, hst.1⟩

/-- An online simulator whose first cycle is a memory-stall countdown
cycle: virtual page 1 is mapped to physical page 0x5000 and the fetch pc
sits in it. -/
def c8on : Simulator :=
  { Simulator.new (fun _ => 0) with
    mmu := c3mmu, pc := 0x1000,
    pipeline := { Pipeline.default with pc := 0x1000 } }

/-- Witness for C8: a concrete online `step` advances the clock from 0 to
1, and the offline state from the counterexample is returned unchanged. -/
theorem step_clock_spec_witness :
    ∃ s', c8on.step = some s' ∧ s'.clock = u32 (c8on.clock + 1) := by
  obtain ⟨s', h⟩ : ∃ s', c8on.step = some s' := ⟨_, rfl⟩
  exact ⟨s', h, (step_clock_spec c8on s' h).1 rfl⟩

/-! ### Claim C5: stores and the rs3 register -/

/-- A simulator with a store `St r2 r0 0` (slot value 5) at writeback. -/
def c5sim : Simulator :=
  { Simulator.new (fun _ => 0) with
    pipeline := { Pipeline.default with
      slots := fun i =>
        if i = 4 then
          { Slot.default with valid := true, instr := .St 2 0 0, rs3 := 5 }
        else Slot.default } }

/-- Counterexample to C5: `writes_to_rs3` reports R2 as written by the
store, yet the writeback stage returns the state unchanged — R2 still
holds 0, not the slot's rs3 value 5. -/
theorem c5_store_writeback_counterexample :
    Instr.writes_to_rs3 (.St 2 0 0) = [2] ∧
    c5sim.pl_writeback_stage = some c5sim ∧
    (c5sim.pipeline.slots 4).rs3 = 5 ∧
    c5sim.read_reg 2 = 0 ∧ (0 : Nat) ≠ 5 :=
  ⟨rfl, rfl, rfl, rfl, by decide⟩

/-- C5 (amended): the hazard query `writes_to_rs3` does report `rs3` as
written for `Stb`/`Sth`/`St` (the source comments this with MMIO
operations), but the writeback stage performs no register write for a
store: it returns the state unchanged. -/
theorem store_writes_to_rs3_spec (s : Simulator) (a b : Nat) (imm : Int)
    (hv : (s.pipeline.slots 4).valid = true)
    (h : (s.pipeline.slots 4).instr = .Stb a b imm ∨
         (s.pipeline.slots 4).instr = .Sth a b imm ∨
         (s.pipeline.slots 4).instr = .St a b imm) :
    Instr.writes_to_rs3 (s.pipeline.slots 4).instr = [a] ∧
    s.pl_writeback_stage = some s := by
  constructor
  · rcases h with h | h | h <;> rw [h] <;> rfl
  · rcases h with h | h | h <;>
      simp only [Simulator.pl_writeback_stage, hv, h] <;> simp

/-- Witness for C5: the amended statement at the concrete store state. -/
theorem store_writes_to_rs3_spec_witness :
    Instr.writes_to_rs3 (c5sim.pipeline.slots 4).instr = [2] ∧
    c5sim.pl_writeback_stage = some c5sim :=
  store_writes_to_rs3_spec c5sim 2 0 0 rfl (Or.inr (Or.inr rfl))

/-! ### Claim C6: Invalid instructions in the pipeline -/

/-- A simulator with an `Invalid` instruction at the execute slot. -/
def c6sim : Simulator :=
  { Simulator.new (fun _ => 0) with
    pipeline := { Pipeline.default with
      slots := fun i =>
        if i = 2 then { Slot.default with valid := true, instr := .Invalid }
        else Slot.default } }

/-- Counterexample to C6: an `Invalid` instruction reaching the execute
stage is executed as a no-op (`Ok`), not a panic. -/
theorem c6_execute_tolerates_invalid_counterexample :
    (c6sim.pipeline.slots 2).valid = true ∧
    (c6sim.pipeline.slots 2).instr = .Invalid ∧
    (∃ s', c6sim.pl_execute_stage = .ok () s') ∧
    c6sim.pl_execute_stage ≠ .panicked := by
  refine ⟨rfl, rfl, ⟨_, rfl⟩, fun h => ?_⟩
  rw [show c6sim.pl_execute_stage = StepRes.ok () _ from rfl] at h
  exact StepRes.noConfusion h

/-- A simulator with an `Invalid` instruction at the writeback slot. -/
def c6wb : Simulator :=
  { Simulator.new (fun _ => 0) with
    pipeline := { Pipeline.default with
      slots := fun i =>
        if i = 4 then { Slot.default with valid := true, instr := .Invalid }
        else Slot.default } }

/-- C6 (amended): a valid `Invalid` instruction is tolerated by the
execute stage (it executes as a no-op); the fatal panic fires only when a
valid `Invalid` instruction reaches the writeback stage. -/
theorem invalid_instr_spec (s : Simulator)
    (h2v : (s.pipeline.slots 2).valid = true)
    (h2i : (s.pipeline.slots 2).instr = .Invalid)
    (s2 : Simulator)
    (h4v : (s2.pipeline.slots 4).valid = true)
    (h4i : (s2.pipeline.slots 4).instr = .Invalid) :
    (∃ s', s.pl_execute_stage = .ok () s') ∧
    s2.pl_writeback_stage = Option.none := by
  constructor
  · simp only [Simulator.pl_execute_stage, h2v, h2i]
    exact ⟨_, rfl⟩
  · simp only [Simulator.pl_writeback_stage, h4v, h4i]
    simp

/-- Witness for C6: the amended statement at the two concrete states. -/
theorem invalid_instr_spec_witness :
    (∃ s', c6sim.pl_execute_stage = .ok () s') ∧
    c6wb.pl_writeback_stage = Option.none :=
  invalid_instr_spec c6sim rfl rfl c6wb rfl rfl

/-! ### Claim C1: architectural visibility of pipelining -/

/-- A one-page program: `stb r1, r0, 0x2000` (whose byte 0x42 is the MMIO
clock-read command) followed by `nop`s. -/
def c1code : Nat → Nat := fun o =>
  if o % 4 = 3 then (if o = 3 then 0x44 else 0x74)
  else if o = 1 then 0x20 else if o = 2 then 0x20 else 0

/-- An MMU with the code page mapped at `0x10000`, the MMIO page mapped at
`0x2000`, and both lines pre-warmed in the cache. -/
def c1mmu : Mmu :=
  { Mmu.new with
    page_table := fun i =>
      if i = 0 then
        some (fun j => if j = 0x10 then 0x10007 else if j = 2 then 0x2007 else 0)
      else Option.none,
    mem := fun b =>
      if b = 0x10000 then some c1code
      else if b = 0x2000 then some (fun _ => 0) else Option.none,
    cache := fun j =>
      if j = 0 then { is_valid := true, tag := 32, data := c1code }
      else if j = 1 then { is_valid := true, tag := 4, data := fun _ => 0 }
      else CacheLine.default }

/-- The pipelined run's start state: pc at the code page, `R1 = 0x42`
(the byte the store sends to the MMIO register). -/
def c1base : Simulator :=
  { Simulator.new (fun _ => 0) with
    mmu := c1mmu, pc := 0x10000,
    pipeline := { Pipeline.default with pc := 0x10000 },
    gen_regs := fun r => if r = 1 then 0x42 else if r = 2 then 0x41 else 0 }

/-- The same architectural state with pipelining disabled. -/
def c1n : Simulator := { c1base with pipelining_enabled := false }

set_option maxRecDepth 100000 in
set_option maxHeartbeats 16000000 in
/-- Counterexample to C1: from the same architectural state, running the
pipelined mode 45 cycles and the unpipelined mode 16 cycles retires the
same single store in both, yet the register files differ: the MMIO
clock-read command latched clock 43 into R1 in one mode and 13 in the
other, so pipelining is architecturally visible. -/
theorem c1_pipelining_visible_counterexample :
    (Simulator.stepN 45 c1base).map
      (fun s => (s.stats.store_instrs, s.read_reg 1)) = some (1, 43) ∧
    (Simulator.stepN 16 c1n).map
      (fun s => (s.stats.store_instrs, s.read_reg 1)) = some (1, 13) ∧
    (43 : Nat) ≠ 13 :=
  ⟨rfl, rfl, by decide⟩

set_option maxRecDepth 100000 in
set_option maxHeartbeats 16000000 in
/-- C1 (amended): running the two modes from the same architectural state
until the same number of instructions has retired yields identical memory
contents and identical register files except for R1, which the MMIO
clock-read command (byte 0x42 stored to 0x2000) loads with the
mode-dependent current clock; pipelining is architecturally visible
through that command (and through the random-number command 0x43). -/
theorem pipelining_visible_spec :
    (Simulator.stepN 45 c1base).map
      (fun s => (s.online, s.stats.store_instrs,
        ((List.range 16).filter (fun r => r != 1)).map s.gen_regs,
        (s.mmu.mem 0x2000).map (fun p => (List.range 4).map p),
        (s.mmu.mem 0x10000).map (fun p => (List.range 8).map p),
        s.read_reg 1)) =
      some (true, 1, [0, 0x41, 0, 0, 0, 0, 0, 0, 0, 0, 0, 0, 0, 0, 0],
        some [0x42, 0, 0, 0], some [0, 0x20, 0x20, 0x44, 0, 0, 0, 0x74], 43) ∧
    (Simulator.stepN 16 c1n).map
      (fun s => (s.online, s.stats.store_instrs,
        ((List.range 16).filter (fun r => r != 1)).map s.gen_regs,
        (s.mmu.mem 0x2000).map (fun p => (List.range 4).map p),
        (s.mmu.mem 0x10000).map (fun p => (List.range 8).map p),
        s.read_reg 1)) =
      some (true, 1, [0, 0x41, 0, 0, 0, 0, 0, 0, 0, 0, 0, 0, 0, 0, 0],
        some [0x42, 0, 0, 0], some [0, 0x20, 0x20, 0x44, 0, 0, 0, 0x74], 13) ∧
    (43 : Nat) ≠ 13 :=
  ⟨rfl, rfl, by decide⟩

/-! ### Claim C9: labels in the assembler's first pass -/

/-- The label test of `Simulator::load_input`'s first pass:
`line.chars().nth(0).unwrap() == '.'`. -/
def isLabelLine (l : String) : Bool := l.data.head? == some '.'

/-- The first pass over a section's lines in `Simulator::load_input`:
label lines add 4 to `size` and record `(line, cur_addr)` in the symbol
table without advancing `cur_addr`; other lines advance `cur_addr` by 4.
The map insert is modelled by consing onto an association list; `none`
models the `unwrap` panic on an empty line. -/
def firstPass : List String → Int → Nat → List (String × Int) →
    Option (Nat × List (String × Int))
  | [], _, size, labels => some (size, labels)
  | l :: rest, cur, size, labels =>
      match l.data.head? with
      | Option.none => Option.none
      | some c =>
          if c = '.' then firstPass rest cur (size + 4) ((l, cur) :: labels)
          else firstPass rest (cur + 4) size labels

/-- Modelled from the claim's wording, not the source: the same walk but
with each label line also occupying 4 bytes of address space (advancing
`cur_addr`). -/
def firstPassClaimed : List String → Int → Nat → List (String × Int) →
    Option (Nat × List (String × Int))
  | [], _, size, labels => some (size, labels)
  | l :: rest, cur, size, labels =>
      match l.data.head? with
      | Option.none => Option.none
      | some c =>
          if c = '.' then
            firstPassClaimed rest (cur + 4) (size + 4) ((l, cur) :: labels)
          else firstPassClaimed rest (cur + 4) size labels

/-- The addresses the source's first pass assigns: a label receives the
current address and does not advance it; only non-label lines advance it
by 4. -/
def labelAddrsSpec : List String → Int → List (String × Int)
  | [], _ => []
  | l :: rest, cur =>
      if isLabelLine l then (l, cur) :: labelAddrsSpec rest cur
      else labelAddrsSpec rest (cur + 4)

/-- Characterization of the first pass: from any accumulator, it returns
`size` grown by 4 per label line and the table extended by the
`labelAddrsSpec` addresses. -/
theorem firstPass_char (lines : List String) :
    ∀ (cur : Int) (size : Nat) (acc : List (String × Int)),
      (∀ l ∈ lines, l.data ≠ []) →
      firstPass lines cur size acc =
        some (size + 4 * (lines.filter (fun l => isLabelLine l)).length,
              (labelAddrsSpec lines cur).reverse ++ acc) := by
  induction lines with
  | nil => intro cur size acc h; simp [firstPass, labelAddrsSpec]
  | cons l rest ih =>
      intro cur size acc h
      have hl : l.data ≠ [] := h l (List.mem_cons_self l rest)
      have hr : ∀ x ∈ rest, x.data ≠ [] :=
        fun x hx => h x (List.mem_cons_of_mem l hx)
      rcases hd : l.data with _ | ⟨c, cs⟩
      · exact absurd hd hl
      · have hhead : l.data.head? = some c := by rw [hd]; rfl
        by_cases hc : c = '.'
        · have hlab : isLabelLine l = true := by
            simp [isLabelLine, hhead, hc]
          simp only [firstPass, hhead]
          rw [if_pos hc, ih cur (size + 4) ((l, cur) :: acc) hr]
          simp only [List.filter_cons, hlab, labelAddrsSpec, if_pos,
            List.length_cons, List.reverse_cons, List.append_assoc,
            List.cons_append, List.nil_append]
          simp only [Option.some.injEq, Prod.mk.injEq]
          exact ⟨by omega, trivial⟩
        · have hlab : isLabelLine l = false := by
            simp [isLabelLine, hhead, hc]
          simp only [firstPass, hhead]
          rw [if_neg hc, ih (cur + 4) size acc hr]
          simp only [List.filter_cons, hlab, labelAddrsSpec]
          rfl

/-- A three-line section: label, instruction, label. -/
def c9lines : List String := [".a", "nop", ".b"]

/-- Counterexample to C9: in the source's first pass the second label gets
address `load + 4` (only the one instruction line advanced the address),
not `load + 8` as it would if the first label occupied 4 bytes; the
claim-modelled walk indeed yields `load + 8`. -/
theorem c9_label_counterexample :
    firstPass c9lines 0 0 [] = some (8, [(".b", 4), (".a", 0)]) ∧
    firstPassClaimed c9lines 0 0 [] = some (8, [(".b", 8), (".a", 0)]) ∧
    ((4 : Int) ≠ 8) :=
  ⟨rfl, rfl, by decide⟩

/-- C9 (amended): in the first pass a label line adds 4 to the section
`size` counter and is recorded at the current address, but occupies no
address space: addresses assigned to subsequent lines are shifted only by
the 4 bytes of each preceding non-label line, never by a label. -/
theorem label_pass_spec (lines : List String) (load : Int)
    (h : ∀ l ∈ lines, l.data ≠ []) :
    firstPass lines load 0 [] =
      some (4 * (lines.filter (fun l => isLabelLine l)).length,
            (labelAddrsSpec lines load).reverse) ∧
    ∀ lbl, isLabelLine lbl = true →
      labelAddrsSpec (lbl :: lines) load = (lbl, load) :: labelAddrsSpec lines load := by
  constructor
  · have hch := firstPass_char lines load 0 [] h
    simpa using hch
  · intro lbl hlbl
    simp [labelAddrsSpec, hlbl]

/-- Witness for C9: the amended statement at the concrete section. -/
theorem label_pass_spec_witness :
    firstPass c9lines 0 0 [] =
      some (4 * (c9lines.filter (fun l => isLabelLine l)).length,
            (labelAddrsSpec c9lines 0).reverse) :=
  (label_pass_spec c9lines 0 (by decide)).1
